import Mathlib

/-!
Verification of the agent orchestration runtime of the looker-assistant
repository (the `Runner` class in `src/agents/runner.ts`, Gemini variant,
together with the primitives it manipulates).  The TypeScript code is
shallowly embedded: asynchronous fallible calls become `Except`-valued
functions, the remote content-generation client becomes an oracle
`gen : Nat → Except String (List GeminiModelResponse)` indexed by the
number of the call, and the `while` loop of `Runner.run` becomes a
fuel-indexed recursion where the fuel is exactly `maxTurns`.
Observable side effects that the claims talk about (which model queries
were issued, when the `onAgentStart` hook fired) are recorded in an
explicit trace threaded through the loop state.
-/

namespace LookerAssistant

/-- Arguments record of a function call (TS `Record<string, unknown>`),
modelled as an association list from argument name to a stringly value;
the Runner never inspects argument values except the handoff `reason`. -/
abbrev Params := List (String × String)

/-- Result attached to an executed tool call.  `ToolResult.ok v` models an
ordinary value returned by `execute`; `ToolResult.err m` models the
structured error record with `error: true` and message `m` that the Runner
synthesizes for tool-not-found and for exceptions thrown by `execute`. -/
inductive ToolResult where
  | ok (value : String) : ToolResult
  | err (message : String) : ToolResult
deriving DecidableEq, Repr

/-- One part of a conversation message (TS `string | Record<string, unknown>`
inside `MessagePart.parts`): plain text, a function call record, or a
function response record as assembled by `runSingleTurn`. -/
inductive Part where
  | text (s : String) : Part
  | functionCall (id name : String) (args : Params) : Part
  | functionResponse (id name responseName : String) (content : ToolResult) : Part
deriving DecidableEq, Repr

/-- TS `MessagePart` from `useGenerateContent`: a role plus ordered parts. -/
structure MessagePart where
  role : String
  parts : List Part
deriving DecidableEq, Repr

/-- TS `Tool`: named capability.  `execute` returning `Except.error m`
models the promise rejecting / an exception with message `m`. -/
structure Tool where
  name : String
  description : String
  execute : Params → Except String String
  showInThread : Bool

/-- TS `GuardrailResult` (the `info` and `message` fields are never read
by the Runner and are elided). -/
structure GuardrailResult where
  tripwireTriggered : Bool
deriving DecidableEq, Repr

/-- Payload handed to `Guardrail.validate`: the raw caller input for the
input pipeline, the candidate final output for the output pipeline. -/
inductive GuardVal where
  | input (messages : List MessagePart) : GuardVal
  | output (s : String) : GuardVal

/-- TS `Guardrail`.  `validate` returning `Except.error m` models a thrown
exception. -/
structure Guardrail where
  name : String
  validate : GuardVal → Except String GuardrailResult

mutual

/-- TS `Agent` descriptor, restricted to the fields the Runner reads:
name, optional `getSystemPrompt` provider (modelled by its produced
string), `injectMessages`, `tools`, `handoffs`, both guardrail lists,
`handoffDescription`, and the `modelSettings.model` entry. -/
inductive Agent : Type where
  | mk (name : String) (systemPrompt : Option String)
      (injectMessages : List MessagePart)
      (tools : List Tool) (handoffs : List Handoff)
      (inputGuardrails outputGuardrails : List Guardrail)
      (handoffDescription : Option String) (modelName : Option String) : Agent

/-- TS `Handoff`: a target agent (by name or by value) and an optional
description.  The optional `filter` predicate is never consulted by this
Runner and is elided. -/
inductive Handoff : Type where
  | mk (targetAgent : String ⊕ Agent) (description : Option String) : Handoff

end

def Agent.name : Agent → String
  | .mk n _ _ _ _ _ _ _ _ => n

def Agent.systemPrompt : Agent → Option String
  | .mk _ p _ _ _ _ _ _ _ => p

def Agent.injectMessages : Agent → List MessagePart
  | .mk _ _ im _ _ _ _ _ _ => im

def Agent.tools : Agent → List Tool
  | .mk _ _ _ ts _ _ _ _ _ => ts

def Agent.handoffs : Agent → List Handoff
  | .mk _ _ _ _ hs _ _ _ _ => hs

def Agent.inputGuardrails : Agent → List Guardrail
  | .mk _ _ _ _ _ ig _ _ _ => ig

def Agent.outputGuardrails : Agent → List Guardrail
  | .mk _ _ _ _ _ _ og _ _ => og

def Agent.handoffDescription : Agent → Option String
  | .mk _ _ _ _ _ _ _ hd _ => hd

def Agent.modelName : Agent → Option String
  | .mk _ _ _ _ _ _ _ _ m => m

def Handoff.targetAgent : Handoff → String ⊕ Agent
  | .mk t _ => t

def Handoff.description : Handoff → Option String
  | .mk _ d => d

/-- One function call payload of a Gemini response element. -/
structure FunctionCallPayload where
  name : String
  args : Params
deriving DecidableEq, Repr

/-- TS `GeminiModelResponse`: one element of the model's response, with an
optional text fragment and an optional function call. -/
structure GeminiModelResponse where
  text : Option String
  functionCall : Option FunctionCallPayload
deriving DecidableEq, Repr

/-- A requested tool call as extracted from the model response
(TS `ToolCall` before execution; its `result` is still null). -/
structure ToolCallReq where
  name : String
  parameters : Params
deriving DecidableEq, Repr

/-- An executed tool call as produced by `executeToolCalls`:
the request together with its result and the `showInThread` flag. -/
structure ExecutedToolCall where
  name : String
  parameters : Params
  result : ToolResult
  showInThread : Bool
deriving DecidableEq, Repr

/-- The handoff request extracted by `processModelResponse`: the target
agent name recovered from the synthetic tool name, and the stated reason
(the `reason` argument, absent if the model omitted it). -/
structure HandoffRequest where
  agentName : String
  reason : Option String
deriving DecidableEq, Repr

/-- The structured form `processModelResponse` produces from the raw
Gemini response. -/
structure ProcessedResponse where
  finalOutput : String
  handoffPerformed : Bool
  handoffAgent : Option HandoffRequest
  toolCalls : List ToolCallReq
deriving DecidableEq, Repr

/-- Entries pushed onto `returnItems` for the UI: the synthetic handoff
record message, or an executed tool call flagged `showInThread`. -/
inductive ReturnItem where
  | handoffRecord (agentName : String) (reason : Option String) : ReturnItem
  | toolItem (call : ExecutedToolCall) : ReturnItem
deriving DecidableEq, Repr

/-- The declared `reason` property of a synthetic handoff tool schema. -/
structure ReasonProperty where
  type : String
  description : String
deriving DecidableEq, Repr

/-- The synthetic handoff tool declaration built in `runSingleTurn`:
name, description, and its parameter schema (an OBJECT with its
properties and required list). -/
structure HandoffToolDecl where
  name : String
  description : String
  schemaType : String
  properties : List (String × ReasonProperty)
  required : List String
deriving DecidableEq, Repr

/-- One entry of the tool catalog passed to `generateContent`: either one
of the agent's own tools (passed through unchanged) or a synthetic
handoff tool declaration. -/
inductive CatalogEntry where
  | ownTool (tool : Tool) : CatalogEntry
  | synthetic (decl : HandoffToolDecl) : CatalogEntry

/-- The observable arguments of one `generateContent` call: conversation
contents, the tool catalog (absent when empty, as in the source), the
system instruction, and the model name.  Sampling parameters and the
response schema are not consulted by any claim and are elided. -/
structure ModelQuery where
  contents : List MessagePart
  tools : Option (List CatalogEntry)
  systemInstruction : String
  modelName : String

/-- Error taxonomy of `Runner.run`: the two typed errors that are
re-thrown as-is, and the generic wrapped error for everything else. -/
inductive RunError where
  | guardrailTripwireTriggered (guardrailName : String) : RunError
  | maxTurnsExceeded (message : String) : RunError
  | wrapped (message : String) : RunError
deriving DecidableEq, Repr

/-- TS `AgentResult` as returned by `Runner.run` (the `context`
pass-through is elided; `handoffAgent` is kept as an option so that its
absence in the returned record can be stated). -/
structure AgentResult where
  finalOutput : String
  handoffPerformed : Bool
  handoffAgent : Option String
  toolCalls : List ExecutedToolCall
  returnItems : List ReturnItem
deriving DecidableEq, Repr

/-- TS `NextStep`. -/
inductive NextStep where
  | finalOutput (output : String) : NextStep
  | handoff (newAgent : Agent) : NextStep
  | runAgain : NextStep

/-- TS `SingleStepResult`. -/
structure SingleStepResult where
  originalInput : List MessagePart
  generatedItems : List ExecutedToolCall
  returnItems : List ReturnItem
  modelResponse : ProcessedResponse
  nextStep : NextStep

/-- JS truthy-or for optional strings: an absent or empty string falls
through to the alternative (models `a || b`). -/
def jsOr (a : Option String) (b : String) : String :=
  match a with
  | some s => if s = "" then b else s
  | none => b

/-- `runInputGuardrails` / `runOutputGuardrails`: all validations are
started, results are inspected in registration order, the first tripped
guardrail raises (its name is the error), and a validation that throws is
logged and skipped (fail-open).  Both TS functions have this exact
structure; they differ only in the payload they pass. -/
def checkGuardrails : List Guardrail → GuardVal → Except String Unit
  | [], _ => .ok ()
  | g :: rest, v =>
    match g.validate v with
    | .ok r => if r.tripwireTriggered then .error g.name else checkGuardrails rest v
    | .error _ => checkGuardrails rest v

/-- The accumulated `responseText` of `processModelResponse`: each
element's text is appended when it is truthy (present and non-empty). -/
def responseTextOf (resp : List GeminiModelResponse) : String :=
  resp.foldl
    (fun acc r =>
      match r.text with
      | some t => if t = "" then acc else acc ++ t
      | none => acc)
    ""

/-- The requested function calls of the response, in response order
(the filter-then-map of `processModelResponse`; the defaults model the
`?.name` and `?.args` fallbacks). -/
def rawToolCalls (resp : List GeminiModelResponse) : List ToolCallReq :=
  (resp.filter (fun r => r.functionCall.isSome)).map
    (fun r =>
      match r.functionCall with
      | some fc => ⟨fc.name, fc.args⟩
      | none => ⟨"", []⟩)

/-- JS `String.prototype.startsWith`, stated over the character lists so
that it evaluates by definitional reduction. -/
def jsStartsWith (s p : String) : Bool :=
  p.data.isPrefixOf s.data

/-- JS `String.prototype.substring(n)`: drop the first `n` characters. -/
def jsSubstringFrom (s : String) (n : Nat) : String :=
  ⟨s.data.drop n⟩

/-- Whitespace in the sense of JS `trim` (restricted to the ASCII
whitespace characters, the only ones these claims exercise). -/
def isJsWhitespace (c : Char) : Bool :=
  c == ' ' || c == '\t' || c == '\n' || c == '\r'

/-- JS `String.prototype.trim`: strip leading and trailing whitespace. -/
def jsTrim (s : String) : String :=
  ⟨((s.data.dropWhile isJsWhitespace).reverse.dropWhile isJsWhitespace).reverse⟩

/-- Whether a function-call name denotes a synthetic handoff tool. -/
def isHandoffName (s : String) : Bool :=
  jsStartsWith s "handoff_to_"

/-- The target agent name recovered from a synthetic handoff tool name
(`substring` past the fixed 11-character marker). -/
def handoffTargetOfName (s : String) : String :=
  jsSubstringFrom s "handoff_to_".length

/-- `Runner.processModelResponse`: concatenate the truthy text fragments,
collect the function calls, single out the first handoff-named call as
the handoff request, remove every handoff-named call from the tool-call
list, and keep the concatenated text as `finalOutput` only when it is
truthy and does not trim to the empty string. -/
def processModelResponse (resp : List GeminiModelResponse) : ProcessedResponse :=
  let allCalls := rawToolCalls resp
  let handoffCall := allCalls.find? (fun c => isHandoffName c.name)
  let handoffAgent := handoffCall.map
    (fun c => HandoffRequest.mk (handoffTargetOfName c.name) (List.lookup "reason" c.parameters))
  let toolCalls := allCalls.filter (fun c => !(isHandoffName c.name))
  let responseText := responseTextOf resp
  let finalOutput :=
    if responseText ≠ "" ∧ jsTrim responseText ≠ "" then responseText else ""
  ⟨finalOutput, handoffAgent.isSome, handoffAgent, toolCalls⟩

/-- The body of the `executeToolCalls` loop for one requested call: look
the tool up in the agent's own catalog; absent tools and throwing tools
both yield the structured error result instead of failing. -/
def execOneToolCall (agent : Agent) (call : ToolCallReq) : ExecutedToolCall :=
  match agent.tools.find? (fun t => t.name == call.name) with
  | some tool =>
    match tool.execute call.parameters with
    | .ok value => ⟨call.name, call.parameters, .ok value, tool.showInThread⟩
    | .error m => ⟨call.name, call.parameters, .err m, tool.showInThread⟩
  | none => ⟨call.name, call.parameters, .err ("Tool " ++ call.name ++ " not found"), false⟩

/-- `Runner.executeToolCalls`: the requested calls are processed one
after the other, in request order. -/
def executeToolCalls (calls : List ToolCallReq) (agent : Agent) : List ExecutedToolCall :=
  calls.map (execOneToolCall agent)

/-- The identity a handoff entry is matched against during resolution:
the target string itself, or the target agent's name. -/
def handoffTargetName : Handoff → String
  | .mk (.inl s) _ => s
  | .mk (.inr a) _ => a.name

/-- The target agent's own `handoffDescription`, reachable only when the
target is given by value. -/
def handoffTargetHandoffDescription : Handoff → Option String
  | .mk (.inl _) _ => none
  | .mk (.inr a) _ => a.handoffDescription

/-- The placeholder agent constructed when a handoff stores its target by
name only (TS builds a bare record containing just the name). -/
def placeholderAgent (s : String) : Agent :=
  .mk s none [] [] [] [] [] none none

/-- `Runner.getHandoffAgent` on the string branch (the only branch
reachable from `runSingleTurn`, which always passes the extracted
name): resolve against the current agent's own handoffs list; failure to
resolve throws. -/
def getHandoffAgent (handoffTarget : String) (currentAgent : Agent) : Except String Agent :=
  match currentAgent.handoffs.find? (fun h => handoffTargetName h == handoffTarget) with
  | some h =>
    .ok (match h.targetAgent with
      | .inl s => placeholderAgent s
      | .inr a => a)
  | none => .error ("Cannot find handoff agent named " ++ handoffTarget)

/-- The pair of messages reconstructing one previously executed tool call
(the model's function call and the user-role function response).  The
random uuid shared by the pair is modelled by the item's position. -/
def reconstructToolMessages (idx : Nat) (item : ExecutedToolCall) : List MessagePart :=
  [⟨"model", [Part.functionCall (toString idx) item.name item.parameters]⟩,
   ⟨"user", [Part.functionResponse (toString idx) item.name item.name item.result]⟩]

/-- The outbound message assembly of `runSingleTurn`: a fresh list
receiving the agent's `injectMessages`, then every caller message, then
the reconstruction of every generated tool-call item. -/
def buildMessages (agent : Agent) (originalInput : List MessagePart)
    (generatedItems : List ExecutedToolCall) : List MessagePart :=
  agent.injectMessages ++ originalInput
    ++ (generatedItems.enum.flatMap (fun p => reconstructToolMessages p.1 p.2))

/-- The fixed `reason` property declared by every synthetic handoff tool. -/
def reasonProperty : ReasonProperty :=
  ⟨"STRING", "Reason for handing off to this agent"⟩

/-- The synthetic handoff tool declaration for one registered handoff. -/
def synthHandoffDecl (h : Handoff) : HandoffToolDecl :=
  ⟨"handoff_to_" ++ handoffTargetName h,
   jsOr h.description (jsOr (handoffTargetHandoffDescription h) ""),
   "OBJECT",
   [("reason", reasonProperty)],
   ["reason"]⟩

/-- The synthetic handoff tools of one agent, in handoff registration
order. -/
def handoffToolsOf (agent : Agent) : List CatalogEntry :=
  agent.handoffs.map (fun h => .synthetic (synthHandoffDecl h))

/-- The combined tool catalog of one turn: the agent's own tools followed
by the synthetic handoff tools. -/
def allToolsOf (agent : Agent) : List CatalogEntry :=
  agent.tools.map .ownTool ++ handoffToolsOf agent

/-- The system instruction of a turn: the agent's provider, or the fixed
default when absent. -/
def systemPromptOf (agent : Agent) : String :=
  match agent.systemPrompt with
  | some p => p
  | none => "You are a helpful AI assistant."

/-- The model name of a turn (truthy `modelSettings.model` or default). -/
def modelNameOf (agent : Agent) : String :=
  jsOr agent.modelName "gemini-2.0-flash"

/-- The `generateContent` call arguments issued by one turn. -/
def mkQuery (agent : Agent) (originalInput : List MessagePart)
    (generatedItems : List ExecutedToolCall) : ModelQuery :=
  let allTools := allToolsOf agent
  ⟨buildMessages agent originalInput generatedItems,
   if allTools.isEmpty then none else some allTools,
   systemPromptOf agent,
   modelNameOf agent⟩

/-- Outcome of one turn: whether `onAgentStart` fired (it fires exactly
when the should-run flag is set and a hook is installed; a hook is
assumed installed), the query issued to the content-generation client,
and the step result or the error thrown. -/
structure TurnOutcome where
  agentStartFired : Bool
  query : ModelQuery
  result : Except RunError SingleStepResult

/-- `Runner.runSingleTurn`: fire the start hook if armed, assemble the
messages and the catalog, call the model, process the response, and
branch on handoff / tool calls / final output.  A rejected generation
call, and a failing handoff resolution, are caught by the surrounding
try and re-thrown wrapped. -/
def runSingleTurn (agent : Agent) (originalInput : List MessagePart)
    (generatedItems : List ExecutedToolCall) (returnItems : List ReturnItem)
    (shouldRunAgentStartHooks : Bool)
    (genResult : Except String (List GeminiModelResponse)) : TurnOutcome :=
  let query := mkQuery agent originalInput generatedItems
  match genResult with
  | .error m =>
    ⟨shouldRunAgentStartHooks, query, .error (.wrapped ("Failed to run model: " ++ m))⟩
  | .ok resp =>
    let processed := processModelResponse resp
    match processed.handoffAgent with
    | some hr =>
      match getHandoffAgent hr.agentName agent with
      | .error m =>
        ⟨shouldRunAgentStartHooks, query, .error (.wrapped ("Failed to run model: " ++ m))⟩
      | .ok newAgent =>
        ⟨shouldRunAgentStartHooks, query,
         .ok ⟨originalInput, generatedItems,
              returnItems ++ [.handoffRecord hr.agentName hr.reason],
              processed, .handoff newAgent⟩⟩
    | none =>
      if processed.toolCalls.isEmpty then
        ⟨shouldRunAgentStartHooks, query,
         .ok ⟨originalInput, generatedItems, returnItems, processed,
              .finalOutput processed.finalOutput⟩⟩
      else
        let executed := executeToolCalls processed.toolCalls agent
        ⟨shouldRunAgentStartHooks, query,
         .ok ⟨originalInput, generatedItems ++ executed,
              returnItems ++ (executed.filter (fun e => e.showInThread)).map .toolItem,
              processed, .runAgain⟩⟩

/-- The final-result filter over generated items (TS keeps the items
having both a name and parameters, which every executed tool call the
Runner ever generates has). -/
def isToolCallItem (_ : ExecutedToolCall) : Bool :=
  true

/-- The per-run mutable locals of `Runner.run`, together with the
observable traces of issued queries and of `onAgentStart` firings. -/
structure LoopState where
  originalInput : List MessagePart
  generatedItems : List ExecutedToolCall
  returnItems : List ReturnItem
  currentAgent : Agent
  shouldRunAgentStartHooks : Bool
  queries : List ModelQuery
  agentStarts : List String

/-- The `while currentTurn < maxTurns` loop of `Runner.run`.  The fuel is
`maxTurns` minus the number of turns already taken, so running out of
fuel is exactly the loop guard failing, which throws `MaxTurnsExceeded`.
On a final output the output guardrails of the now-current agent plus
the run-config ones are checked, and the returned record hardcodes
`handoffPerformed := false` and carries no `handoffAgent`, exactly as
the source does. -/
def runLoop (gen : Nat → Except String (List GeminiModelResponse))
    (cfgOutputGuardrails : List Guardrail) (maxTurns : Nat) :
    Nat → LoopState → Except RunError AgentResult × LoopState
  | 0, st =>
    (.error (.maxTurnsExceeded ("Max turns (" ++ toString maxTurns ++ ") exceeded")), st)
  | fuel + 1, st =>
    let t := runSingleTurn st.currentAgent st.originalInput st.generatedItems st.returnItems
      st.shouldRunAgentStartHooks (gen (maxTurns - (fuel + 1)))
    let st1 : LoopState :=
      { st with
        queries := st.queries ++ [t.query]
        agentStarts :=
          st.agentStarts ++ (if t.agentStartFired then [st.currentAgent.name] else [])
        shouldRunAgentStartHooks := false }
    match t.result with
    | .error e => (.error e, st1)
    | .ok step =>
      let st2 : LoopState :=
        { st1 with
          originalInput := step.originalInput
          generatedItems := step.generatedItems
          returnItems := step.returnItems }
      match step.nextStep with
      | .finalOutput out =>
        match checkGuardrails (st2.currentAgent.outputGuardrails ++ cfgOutputGuardrails)
            (.output out) with
        | .error g => (.error (.guardrailTripwireTriggered g), st2)
        | .ok _ =>
          (.ok ⟨out, false, none, st2.generatedItems.filter isToolCallItem, st2.returnItems⟩,
           st2)
      | .handoff newAgent =>
        runLoop gen cfgOutputGuardrails maxTurns fuel
          { st2 with currentAgent := newAgent, shouldRunAgentStartHooks := true }
      | .runAgain => runLoop gen cfgOutputGuardrails maxTurns fuel st2

/-- The caller-supplied input of `Runner.run`: a bare string or a message
list. -/
inductive RunInput where
  | str (s : String) : RunInput
  | messages (ms : List MessagePart) : RunInput

/-- The initial `originalInput`: a bare string is wrapped into a single
user message; a message list is taken as is (no copy is made). -/
def initialMessages : RunInput → List MessagePart
  | .str s => [⟨"user", [Part.text s]⟩]
  | .messages ms => ms

/-- The observable outcome of `Runner.run`: the result or typed error,
plus the traces of issued generation calls and `onAgentStart` firings. -/
structure RunOutcome where
  result : Except RunError AgentResult
  queries : List ModelQuery
  agentStarts : List String

/-- The outer catch of `Runner.run`: guardrail trips and max-turns errors
are re-thrown unchanged, anything else is wrapped once more. -/
def wrapOuter : Except RunError AgentResult → Except RunError AgentResult
  | .error (.wrapped m) => .error (.wrapped ("Error running agent: " ++ m))
  | r => r

/-- TS `Runner.DEFAULT_MAX_TURNS`. -/
def defaultMaxTurns : Nat := 10

/-- `Runner.run`.  The first loop iteration (and only it) runs the input
guardrails — own ones then run-config ones — against the raw converted
input before `runSingleTurn`; with `maxTurns = 0` the loop body never
runs and `MaxTurnsExceeded` is thrown directly. -/
def Runner.run (startingAgent : Agent) (input : RunInput) (maxTurns : Nat)
    (cfgInputGuardrails cfgOutputGuardrails : List Guardrail)
    (gen : Nat → Except String (List GeminiModelResponse)) : RunOutcome :=
  let originalInput := initialMessages input
  let st0 : LoopState := ⟨originalInput, [], [], startingAgent, true, [], []⟩
  if maxTurns = 0 then
    ⟨.error (.maxTurnsExceeded ("Max turns (" ++ toString maxTurns ++ ") exceeded")), [], []⟩
  else
    match checkGuardrails (startingAgent.inputGuardrails ++ cfgInputGuardrails)
        (.input originalInput) with
    | .error g => ⟨.error (.guardrailTripwireTriggered g), [], []⟩
    | .ok _ =>
      let r := runLoop gen cfgOutputGuardrails maxTurns maxTurns st0
      ⟨wrapOuter r.1, r.2.queries, r.2.agentStarts⟩

/-! Spec-side definitions, written from the specification's words, to be
compared with the behaviour of the source-derived functions above. -/

/-- Modelled from the spec: the concatenation of all text fragments of a
response, in response order. -/
def textConcat (resp : List GeminiModelResponse) : String :=
  resp.foldl
    (fun acc r =>
      acc ++ (match r.text with
        | some t => t
        | none => ""))
    ""

/-- Whether a guardrail trips on a payload, counting a thrown validation
as not tripped. -/
def tripsOn (g : Guardrail) (v : GuardVal) : Bool :=
  match g.validate v with
  | .ok r => r.tripwireTriggered
  | .error _ => false

/-- Modelled from the spec: the first guardrail, in registration order,
that trips on the payload. -/
def firstTripped (gs : List Guardrail) (v : GuardVal) : Option Guardrail :=
  gs.find? (fun g => tripsOn g v)

/-! Concrete fixtures used by the witness and counterexample theorems. -/

/-- A tool that always succeeds and is surfaced in the thread. -/
def exTool : Tool :=
  ⟨"lookup", "find data", fun _ => .ok "v", true⟩

/-- A tool whose `execute` always throws. -/
def exThrowTool : Tool :=
  ⟨"bad", "always fails", fun _ => .error "kaboom", false⟩

/-- Handoff target agent `B`. -/
def agentB : Agent :=
  .mk "B" (some "sysB") [] [] [] [] [] none none

/-- Starting agent `A` with one tool and a handoff to `B`. -/
def agentA : Agent :=
  .mk "A" none [] [exTool] [.mk (.inr agentB) (some "to B")] [] [] none none

/-- An agent with the throwing tool. -/
def agentC : Agent :=
  .mk "C" none [] [exThrowTool] [] [] [] none none

/-- A response requesting the `lookup` tool. -/
def respTool : List GeminiModelResponse :=
  [⟨none, some ⟨"lookup", [("q", "x")]⟩⟩]

/-- A response requesting the handoff to `B`. -/
def respHandoff : List GeminiModelResponse :=
  [⟨none, some ⟨"handoff_to_B", [("reason", "needs B")]⟩⟩]

/-- A response bundling two handoff invocations and an ordinary tool
call. -/
def respHandoffMulti : List GeminiModelResponse :=
  [⟨none, some ⟨"handoff_to_B", [("reason", "r1")]⟩⟩,
   ⟨none, some ⟨"handoff_to_C", [("reason", "r2")]⟩⟩,
   ⟨none, some ⟨"lookup", []⟩⟩]

/-- A plain-text final response. -/
def respDone : List GeminiModelResponse :=
  [⟨some "done", none⟩]

/-- A response whose only text fragment is whitespace. -/
def respBlank : List GeminiModelResponse :=
  [⟨some " ", none⟩]

/-- An oracle that always requests a tool call. -/
def genToolForever : Nat → Except String (List GeminiModelResponse) :=
  fun _ => .ok respTool

/-- An oracle: handoff on the first call, text afterwards. -/
def genHandoffThenDone : Nat → Except String (List GeminiModelResponse)
  | 0 => .ok respHandoff
  | _ => .ok respDone

/-- An oracle: tool call, then handoff, then text — a run that uses a
tool before handing off. -/
def genToolHandoffDone : Nat → Except String (List GeminiModelResponse)
  | 0 => .ok respTool
  | 1 => .ok respHandoff
  | _ => .ok respDone

/-- An oracle that always answers with plain text. -/
def genDoneForever : Nat → Except String (List GeminiModelResponse) :=
  fun _ => .ok respDone

/-- A guardrail that always trips. -/
def tripGuardrail : Guardrail :=
  ⟨"block", fun _ => .ok ⟨true⟩⟩

/-- A guardrail whose validation always throws. -/
def throwGuardrail : Guardrail :=
  ⟨"boom", fun _ => .error "exploded"⟩

/-- A guardrail that never trips. -/
def passGuardrail : Guardrail :=
  ⟨"pass", fun _ => .ok ⟨false⟩⟩

/-- An agent whose single input guardrail always trips. -/
def agentG : Agent := .mk "G" none [] [] [] [tripGuardrail] [] none none

/-- An agent whose single output guardrail always trips. -/
def agentOG : Agent := .mk "O" none [] [] [] [] [tripGuardrail] none none

/-- An agent whose input and output guardrails both throw. -/
def agentT : Agent := .mk "T" none [] [] [] [throwGuardrail] [throwGuardrail] none none

/-- A response requesting a handoff to the unregistered agent `C`. -/
def respHandoffBad : List GeminiModelResponse :=
  [⟨none, some ⟨"handoff_to_C", [("reason", "r")]⟩⟩]

/-- An oracle that always requests the unresolvable handoff. -/
def genHandoffBad : Nat → Except String (List GeminiModelResponse) :=
  fun _ => .ok respHandoffBad

/-- The single step produced by a text-only first turn. -/
def wStep : SingleStepResult :=
  ⟨initialMessages (.str "hi"), [], [], processModelResponse respDone,
   .finalOutput (processModelResponse respDone).finalOutput⟩

/-! Helper lemmas shared by the claim theorems. -/

theorem runSingleTurn_query (a : Agent) (oi : List MessagePart)
    (gi : List ExecutedToolCall) (ri : List ReturnItem) (b : Bool)
    (g : Except String (List GeminiModelResponse)) :
    (runSingleTurn a oi gi ri b g).query = mkQuery a oi gi := by
  unfold runSingleTurn
  cases g with
  | error m => rfl
  | ok resp =>
    simp only []
    cases h : (processModelResponse resp).handoffAgent with
    | some hr =>
      cases h2 : getHandoffAgent hr.agentName a <;> simp [h, h2]
    | none =>
      by_cases h3 : (processModelResponse resp).toolCalls.isEmpty <;> simp [h, h3]

theorem runSingleTurn_fired (a : Agent) (oi : List MessagePart)
    (gi : List ExecutedToolCall) (ri : List ReturnItem) (b : Bool)
    (g : Except String (List GeminiModelResponse)) :
    (runSingleTurn a oi gi ri b g).agentStartFired = b := by
  unfold runSingleTurn
  cases g with
  | error m => rfl
  | ok resp =>
    cases h : (processModelResponse resp).handoffAgent with
    | some hr =>
      cases h2 : getHandoffAgent hr.agentName a <;> simp [h, h2]
    | none =>
      by_cases h3 : (processModelResponse resp).toolCalls.isEmpty <;> simp [h, h3]

theorem runSingleTurn_genError (a : Agent) (oi : List MessagePart)
    (gi : List ExecutedToolCall) (ri : List ReturnItem) (b : Bool) (m : String) :
    (runSingleTurn a oi gi ri b (.error m)).result =
      .error (.wrapped ("Failed to run model: " ++ m)) := rfl

theorem runSingleTurn_handoff_ok (a : Agent) (oi : List MessagePart)
    (gi : List ExecutedToolCall) (ri : List ReturnItem) (b : Bool)
    (resp : List GeminiModelResponse) (hr : HandoffRequest) (na : Agent)
    (h1 : (processModelResponse resp).handoffAgent = some hr)
    (h2 : getHandoffAgent hr.agentName a = .ok na) :
    (runSingleTurn a oi gi ri b (.ok resp)).result =
      .ok ⟨oi, gi, ri ++ [.handoffRecord hr.agentName hr.reason],
           processModelResponse resp, .handoff na⟩ := by
  unfold runSingleTurn
  simp [h1, h2]

theorem runSingleTurn_handoff_err (a : Agent) (oi : List MessagePart)
    (gi : List ExecutedToolCall) (ri : List ReturnItem) (b : Bool)
    (resp : List GeminiModelResponse) (hr : HandoffRequest) (m : String)
    (h1 : (processModelResponse resp).handoffAgent = some hr)
    (h2 : getHandoffAgent hr.agentName a = .error m) :
    (runSingleTurn a oi gi ri b (.ok resp)).result =
      .error (.wrapped ("Failed to run model: " ++ m)) := by
  unfold runSingleTurn
  simp [h1, h2]

theorem runSingleTurn_tools (a : Agent) (oi : List MessagePart)
    (gi : List ExecutedToolCall) (ri : List ReturnItem) (b : Bool)
    (resp : List GeminiModelResponse)
    (h1 : (processModelResponse resp).handoffAgent = none)
    (h2 : (processModelResponse resp).toolCalls ≠ []) :
    (runSingleTurn a oi gi ri b (.ok resp)).result =
      .ok ⟨oi, gi ++ executeToolCalls (processModelResponse resp).toolCalls a,
           ri ++ ((executeToolCalls (processModelResponse resp).toolCalls a).filter
              (fun e => e.showInThread)).map .toolItem,
           processModelResponse resp, .runAgain⟩ := by
  unfold runSingleTurn
  simp [h1, h2, List.isEmpty_iff]

theorem runSingleTurn_final (a : Agent) (oi : List MessagePart)
    (gi : List ExecutedToolCall) (ri : List ReturnItem) (b : Bool)
    (resp : List GeminiModelResponse)
    (h1 : (processModelResponse resp).handoffAgent = none)
    (h2 : (processModelResponse resp).toolCalls = []) :
    (runSingleTurn a oi gi ri b (.ok resp)).result =
      .ok ⟨oi, gi, ri, processModelResponse resp,
           .finalOutput (processModelResponse resp).finalOutput⟩ := by
  unfold runSingleTurn
  simp [h1, h2]

theorem runSingleTurn_ok_originalInput (a : Agent) (oi : List MessagePart)
    (gi : List ExecutedToolCall) (ri : List ReturnItem) (b : Bool)
    (g : Except String (List GeminiModelResponse)) (step : SingleStepResult)
    (h : (runSingleTurn a oi gi ri b g).result = .ok step) :
    step.originalInput = oi := by
  cases g with
  | error m => rw [runSingleTurn_genError] at h; cases h
  | ok resp =>
    cases h1 : (processModelResponse resp).handoffAgent with
    | some hr =>
      cases h2 : getHandoffAgent hr.agentName a with
      | ok na => rw [runSingleTurn_handoff_ok a oi gi ri b resp hr na h1 h2] at h; cases h; rfl
      | error m => rw [runSingleTurn_handoff_err a oi gi ri b resp hr m h1 h2] at h; cases h
    | none =>
      by_cases h3 : (processModelResponse resp).toolCalls = []
      · rw [runSingleTurn_final a oi gi ri b resp h1 h3] at h; cases h; rfl
      · rw [runSingleTurn_tools a oi gi ri b resp h1 h3] at h; cases h; rfl

theorem checkGuardrails_eq_firstTripped (gs : List Guardrail) (v : GuardVal) :
    checkGuardrails gs v =
      (match firstTripped gs v with
        | some g => .error g.name
        | none => .ok ()) := by
  induction gs with
  | nil => rfl
  | cons g rest ih =>
    cases h2 : g.validate v with
    | ok r =>
      by_cases h3 : r.tripwireTriggered
      · simp [checkGuardrails, firstTripped, tripsOn, h2, h3]
      · simp only [checkGuardrails, h2, h3, if_false, Bool.false_eq_true]
        rw [ih]
        simp [firstTripped, tripsOn, h2, h3]
    | error m =>
      simp only [checkGuardrails, h2]
      rw [ih]
      simp [firstTripped, tripsOn, h2]

theorem checkGuardrails_skip (gs₁ : List Guardrail) (g : Guardrail)
    (gs₂ : List Guardrail) (v : GuardVal) (m : String)
    (h : g.validate v = .error m) :
    checkGuardrails (gs₁ ++ g :: gs₂) v = checkGuardrails (gs₁ ++ gs₂) v := by
  induction gs₁ with
  | nil => simp [checkGuardrails, h]
  | cons g' rest ih =>
    simp only [List.cons_append]
    unfold checkGuardrails
    cases h2 : g'.validate v with
    | ok r =>
      by_cases h3 : r.tripwireTriggered <;> simp [h3, ih]
    | error _ => exact ih

theorem checkGuardrails_allThrow (gs : List Guardrail) (v : GuardVal)
    (h : ∀ g ∈ gs, ∃ m, g.validate v = .error m) :
    checkGuardrails gs v = .ok () := by
  induction gs with
  | nil => rfl
  | cons g rest ih =>
    obtain ⟨m, hm⟩ := h g (by simp)
    unfold checkGuardrails
    rw [hm]
    exact ih fun g' hg' => h g' (by simp [hg'])

theorem str_append_empty (s : String) : s ++ "" = s := by
  simp

theorem responseTextOf_eq_textConcat (resp : List GeminiModelResponse) :
    responseTextOf resp = textConcat resp := by
  suffices h : ∀ (l : List GeminiModelResponse) (acc : String),
      l.foldl (fun acc r =>
        match r.text with
        | some t => if t = "" then acc else acc ++ t
        | none => acc) acc
      = l.foldl (fun acc r =>
          acc ++ (match r.text with
            | some t => t
            | none => "")) acc by
    exact h resp ""
  intro l
  induction l with
  | nil => intro acc; rfl
  | cons r rest ih =>
    intro acc
    simp only [List.foldl_cons]
    cases hr : r.text with
    | some t =>
      by_cases ht : t = ""
      · subst ht
        simp only [hr, if_pos rfl, str_append_empty]
        exact ih acc
      · simp only [hr, if_neg ht]
        exact ih (acc ++ t)
    | none =>
      simp only [hr, str_append_empty]
      exact ih acc

theorem jsTrim_empty : jsTrim "" = "" := rfl

theorem processModelResponse_finalOutput (resp : List GeminiModelResponse) :
    (processModelResponse resp).finalOutput
      = (if jsTrim (textConcat resp) ≠ "" then textConcat resp else "") := by
  unfold processModelResponse
  simp only [responseTextOf_eq_textConcat]
  by_cases h1 : textConcat resp = ""
  · rw [h1]
    simp [jsTrim_empty]
  · by_cases h2 : jsTrim (textConcat resp) = ""
    · simp [h1, h2]
    · simp [h1, h2]

theorem execOneToolCall_name (agent : Agent) (c : ToolCallReq) :
    (execOneToolCall agent c).name = c.name := by
  unfold execOneToolCall
  split
  · split <;> rfl
  · rfl

theorem execOneToolCall_parameters (agent : Agent) (c : ToolCallReq) :
    (execOneToolCall agent c).parameters = c.parameters := by
  unfold execOneToolCall
  split
  · split <;> rfl
  · rfl

theorem wrapOuter_ok (e : Except RunError AgentResult) (r : AgentResult) :
    wrapOuter e = .ok r ↔ e = .ok r := by
  cases e with
  | ok x => simp [wrapOuter]
  | error err => cases err <;> simp [wrapOuter]

theorem find_first_spec {α : Type} (p : α → Bool) (l : List α) (x : α)
    (h : l.find? p = some x) :
    ∃ i, l.get? i = some x ∧ p x = true
      ∧ ∀ j y, j < i → l.get? j = some y → p y = false := by
  induction l with
  | nil => cases h
  | cons a rest ih =>
    by_cases hp : p a
    · rw [List.find?_cons_of_pos _ hp] at h
      cases h
      exact ⟨0, rfl, hp, fun j y hj _ => absurd hj (by omega)⟩
    · rw [List.find?_cons_of_neg _ (by simpa using hp)] at h
      obtain ⟨i, h1, h2, h3⟩ := ih h
      refine ⟨i + 1, by simpa using h1, h2, ?_⟩
      intro j y hj hy
      cases j with
      | zero =>
        simp only [List.get?_cons_zero] at hy
        cases hy
        simpa using hp
      | succ j2 => exact h3 j2 y (by omega) (by simpa using hy)

theorem runLoop_invariants (gen : Nat → Except String (List GeminiModelResponse))
    (go : List Guardrail) (mt : Nat) :
    ∀ fuel st, ∃ qs as,
      ((runLoop gen go mt fuel st).2).queries = st.queries ++ qs
      ∧ ((runLoop gen go mt fuel st).2).agentStarts = st.agentStarts ++ as
      ∧ qs.length ≤ fuel
      ∧ (fuel = 0 ∨ 1 ≤ qs.length)
      ∧ ((runLoop gen go mt fuel st).2).originalInput = st.originalInput
      ∧ (∀ q ∈ qs, ∃ ag items, q = mkQuery ag st.originalInput items) := by
  intro fuel
  induction fuel with
  | zero =>
    intro st
    refine ⟨[], [], ?_, ?_, ?_, Or.inl rfl, ?_, ?_⟩ <;> simp [runLoop]
  | succ n ih =>
    intro st
    have hq := runSingleTurn_query st.currentAgent st.originalInput st.generatedItems
      st.returnItems st.shouldRunAgentStartHooks (gen (mt - (n + 1)))
    cases hres : (runSingleTurn st.currentAgent st.originalInput st.generatedItems
        st.returnItems st.shouldRunAgentStartHooks (gen (mt - (n + 1)))).result with
    | error e =>
      refine ⟨[mkQuery st.currentAgent st.originalInput st.generatedItems],
        (if (runSingleTurn st.currentAgent st.originalInput st.generatedItems
          st.returnItems st.shouldRunAgentStartHooks (gen (mt - (n + 1)))).agentStartFired
          then [st.currentAgent.name] else []), ?_, ?_, ?_, ?_, ?_, ?_⟩
      · simp only [runLoop, hres, hq]
      · simp only [runLoop, hres]
      · simp
      · simp
      · simp only [runLoop, hres]
      · intro q hqmem
        simp at hqmem
        exact ⟨st.currentAgent, st.generatedItems, hqmem⟩
    | ok step =>
      have hoi := runSingleTurn_ok_originalInput st.currentAgent st.originalInput
        st.generatedItems st.returnItems st.shouldRunAgentStartHooks (gen (mt - (n + 1))) step hres
      cases hns : step.nextStep with
      | finalOutput out =>
        cases hcg : checkGuardrails (st.currentAgent.outputGuardrails ++ go) (.output out) with
        | error g =>
          refine ⟨[mkQuery st.currentAgent st.originalInput st.generatedItems],
            (if (runSingleTurn st.currentAgent st.originalInput st.generatedItems
              st.returnItems st.shouldRunAgentStartHooks (gen (mt - (n + 1)))).agentStartFired
              then [st.currentAgent.name] else []), ?_, ?_, ?_, ?_, ?_, ?_⟩
          · simp only [runLoop, hres, hns, hcg, hq]
          · simp only [runLoop, hres, hns, hcg]
          · simp
          · simp
          · simp only [runLoop, hres, hns, hcg]; exact hoi
          · intro q hqmem
            simp at hqmem
            exact ⟨st.currentAgent, st.generatedItems, hqmem⟩
        | ok u =>
          refine ⟨[mkQuery st.currentAgent st.originalInput st.generatedItems],
            (if (runSingleTurn st.currentAgent st.originalInput st.generatedItems
              st.returnItems st.shouldRunAgentStartHooks (gen (mt - (n + 1)))).agentStartFired
              then [st.currentAgent.name] else []), ?_, ?_, ?_, ?_, ?_, ?_⟩
          · simp only [runLoop, hres, hns, hcg, hq]
          · simp only [runLoop, hres, hns, hcg]
          · simp
          · simp
          · simp only [runLoop, hres, hns, hcg]; exact hoi
          · intro q hqmem
            simp at hqmem
            exact ⟨st.currentAgent, st.generatedItems, hqmem⟩
      | handoff newAgent =>
        have hf := runSingleTurn_fired st.currentAgent st.originalInput st.generatedItems
          st.returnItems st.shouldRunAgentStartHooks (gen (mt - (n + 1)))
        have hstep : runLoop gen go mt (n + 1) st = runLoop gen go mt n
            { originalInput := step.originalInput
              generatedItems := step.generatedItems
              returnItems := step.returnItems
              currentAgent := newAgent
              shouldRunAgentStartHooks := true
              queries := st.queries
                ++ [mkQuery st.currentAgent st.originalInput st.generatedItems]
              agentStarts := st.agentStarts
                ++ (if st.shouldRunAgentStartHooks then [st.currentAgent.name] else []) } := by
          simp only [runLoop, hres, hns, hq, hf]
        rw [hstep]
        obtain ⟨qs2, as2, e1, e2, e3, e4, e5, e6⟩ := ih _
        refine ⟨mkQuery st.currentAgent st.originalInput st.generatedItems :: qs2,
          (if st.shouldRunAgentStartHooks then [st.currentAgent.name] else []) ++ as2,
          ?_, ?_, ?_, ?_, ?_, ?_⟩
        · rw [e1]; simp
        · rw [e2]; simp
        · simp only [List.length_cons]; omega
        · right; simp
        · rw [e5]; exact hoi
        · intro q hm
          rcases List.mem_cons.mp hm with h | h
          · exact ⟨st.currentAgent, st.generatedItems, h⟩
          · obtain ⟨ag, items, hq2⟩ := e6 q h
            refine ⟨ag, items, ?_⟩
            rw [hq2]
            show mkQuery ag step.originalInput items = mkQuery ag st.originalInput items
            rw [hoi]
      | runAgain =>
        have hf := runSingleTurn_fired st.currentAgent st.originalInput st.generatedItems
          st.returnItems st.shouldRunAgentStartHooks (gen (mt - (n + 1)))
        have hstep : runLoop gen go mt (n + 1) st = runLoop gen go mt n
            { originalInput := step.originalInput
              generatedItems := step.generatedItems
              returnItems := step.returnItems
              currentAgent := st.currentAgent
              shouldRunAgentStartHooks := false
              queries := st.queries
                ++ [mkQuery st.currentAgent st.originalInput st.generatedItems]
              agentStarts := st.agentStarts
                ++ (if st.shouldRunAgentStartHooks then [st.currentAgent.name] else []) } := by
          simp only [runLoop, hres, hns, hq, hf]
        rw [hstep]
        obtain ⟨qs2, as2, e1, e2, e3, e4, e5, e6⟩ := ih _
        refine ⟨mkQuery st.currentAgent st.originalInput st.generatedItems :: qs2,
          (if st.shouldRunAgentStartHooks then [st.currentAgent.name] else []) ++ as2,
          ?_, ?_, ?_, ?_, ?_, ?_⟩
        · rw [e1]; simp
        · rw [e2]; simp
        · simp only [List.length_cons]; omega
        · right; simp
        · rw [e5]; exact hoi
        · intro q hm
          rcases List.mem_cons.mp hm with h | h
          · exact ⟨st.currentAgent, st.generatedItems, h⟩
          · obtain ⟨ag, items, hq2⟩ := e6 q h
            refine ⟨ag, items, ?_⟩
            rw [hq2]
            show mkQuery ag step.originalInput items = mkQuery ag st.originalInput items
            rw [hoi]

theorem runLoop_head_traces (gen : Nat → Except String (List GeminiModelResponse))
    (go : List Guardrail) (mt n : Nat) (st : LoopState) :
    ∃ qs as,
      ((runLoop gen go mt (n + 1) st).2).queries
        = st.queries ++ mkQuery st.currentAgent st.originalInput st.generatedItems :: qs
      ∧ ((runLoop gen go mt (n + 1) st).2).agentStarts
        = st.agentStarts
          ++ ((if st.shouldRunAgentStartHooks then [st.currentAgent.name] else []) ++ as) := by
  have hq := runSingleTurn_query st.currentAgent st.originalInput st.generatedItems
    st.returnItems st.shouldRunAgentStartHooks (gen (mt - (n + 1)))
  have hf := runSingleTurn_fired st.currentAgent st.originalInput st.generatedItems
    st.returnItems st.shouldRunAgentStartHooks (gen (mt - (n + 1)))
  cases hres : (runSingleTurn st.currentAgent st.originalInput st.generatedItems
      st.returnItems st.shouldRunAgentStartHooks (gen (mt - (n + 1)))).result with
  | error e =>
    refine ⟨[], [], ?_, ?_⟩ <;> simp [runLoop, hres, hq, hf]
  | ok step =>
    have hoi := runSingleTurn_ok_originalInput st.currentAgent st.originalInput
      st.generatedItems st.returnItems st.shouldRunAgentStartHooks (gen (mt - (n + 1))) step hres
    cases hns : step.nextStep with
    | finalOutput out =>
      cases hcg : checkGuardrails (st.currentAgent.outputGuardrails ++ go) (.output out) with
      | error g =>
        refine ⟨[], [], ?_, ?_⟩ <;> simp [runLoop, hres, hns, hcg, hq, hf]
      | ok u =>
        refine ⟨[], [], ?_, ?_⟩ <;> simp [runLoop, hres, hns, hcg, hq, hf]
    | handoff newAgent =>
      have hstep : runLoop gen go mt (n + 1) st = runLoop gen go mt n
          { originalInput := step.originalInput
            generatedItems := step.generatedItems
            returnItems := step.returnItems
            currentAgent := newAgent
            shouldRunAgentStartHooks := true
            queries := st.queries
              ++ [mkQuery st.currentAgent st.originalInput st.generatedItems]
            agentStarts := st.agentStarts
              ++ (if st.shouldRunAgentStartHooks then [st.currentAgent.name] else []) } := by
        simp only [runLoop, hres, hns, hq, hf]
      rw [hstep]
      obtain ⟨qs2, as2, e1, e2, _, _, _, _⟩ := runLoop_invariants gen go mt n _
      exact ⟨qs2, as2, by rw [e1]; simp, by rw [e2]; simp⟩
    | runAgain =>
      have hstep : runLoop gen go mt (n + 1) st = runLoop gen go mt n
          { originalInput := step.originalInput
            generatedItems := step.generatedItems
            returnItems := step.returnItems
            currentAgent := st.currentAgent
            shouldRunAgentStartHooks := false
            queries := st.queries
              ++ [mkQuery st.currentAgent st.originalInput st.generatedItems]
            agentStarts := st.agentStarts
              ++ (if st.shouldRunAgentStartHooks then [st.currentAgent.name] else []) } := by
        simp only [runLoop, hres, hns, hq, hf]
      rw [hstep]
      obtain ⟨qs2, as2, e1, e2, _, _, _, _⟩ := runLoop_invariants gen go mt n _
      exact ⟨qs2, as2, by rw [e1]; simp, by rw [e2]; simp⟩

theorem runLoop_ok_output (gen : Nat → Except String (List GeminiModelResponse))
    (go : List Guardrail) (mt : Nat) :
    ∀ fuel st r, (runLoop gen go mt fuel st).1 = .ok r →
      ∃ ag : Agent, checkGuardrails (ag.outputGuardrails ++ go) (.output r.finalOutput) = .ok () := by
  intro fuel
  induction fuel with
  | zero => intro st r h; simp [runLoop] at h
  | succ n ih =>
    intro st r h
    cases hres : (runSingleTurn st.currentAgent st.originalInput st.generatedItems
        st.returnItems st.shouldRunAgentStartHooks (gen (mt - (n + 1)))).result with
    | error e => simp only [runLoop, hres] at h; simp at h
    | ok step =>
      cases hns : step.nextStep with
      | finalOutput out =>
        cases hcg : checkGuardrails (st.currentAgent.outputGuardrails ++ go) (.output out) with
        | error g => simp only [runLoop, hres, hns, hcg] at h; simp at h
        | ok u =>
          simp only [runLoop, hres, hns, hcg] at h
          rw [Except.ok.injEq] at h
          subst h
          cases u
          exact ⟨st.currentAgent, hcg⟩
      | handoff newAgent =>
        simp only [runLoop, hres, hns] at h
        exact ih _ r h
      | runAgain =>
        simp only [runLoop, hres, hns] at h
        exact ih _ r h

theorem run_guardrails_trip (a : Agent) (inp : RunInput) (mt : Nat)
    (gi go : List Guardrail) (gen : Nat → Except String (List GeminiModelResponse))
    (g : String) (hmt : mt ≠ 0)
    (hg : checkGuardrails (a.inputGuardrails ++ gi) (.input (initialMessages inp)) = .error g) :
    Runner.run a inp mt gi go gen = ⟨.error (.guardrailTripwireTriggered g), [], []⟩ := by
  simp [Runner.run, hmt, hg]

theorem run_guardrails_ok (a : Agent) (inp : RunInput) (mt : Nat)
    (gi go : List Guardrail) (gen : Nat → Except String (List GeminiModelResponse))
    (hmt : mt ≠ 0)
    (hg : checkGuardrails (a.inputGuardrails ++ gi) (.input (initialMessages inp)) = .ok ()) :
    Runner.run a inp mt gi go gen
      = ⟨wrapOuter (runLoop gen go mt mt ⟨initialMessages inp, [], [], a, true, [], []⟩).1,
         ((runLoop gen go mt mt ⟨initialMessages inp, [], [], a, true, [], []⟩).2).queries,
         ((runLoop gen go mt mt ⟨initialMessages inp, [], [], a, true, [], []⟩).2).agentStarts⟩ := by
  simp [Runner.run, hmt, hg]

theorem run_first_turn_final_trip (a : Agent) (inp : RunInput) (mt : Nat)
    (gi go : List Guardrail) (gen : Nat → Except String (List GeminiModelResponse))
    (resp : List GeminiModelResponse) (g : String) (hmt : mt ≠ 0)
    (hg : checkGuardrails (a.inputGuardrails ++ gi) (.input (initialMessages inp)) = .ok ())
    (hgen : gen 0 = .ok resp)
    (h1 : (processModelResponse resp).handoffAgent = none)
    (h2 : (processModelResponse resp).toolCalls = [])
    (hcg : checkGuardrails (a.outputGuardrails ++ go)
        (.output (processModelResponse resp).finalOutput) = .error g) :
    Runner.run a inp mt gi go gen
      = ⟨.error (.guardrailTripwireTriggered g), [mkQuery a (initialMessages inp) []], [a.name]⟩ := by
  obtain ⟨k, rfl⟩ : ∃ k, mt = k + 1 := ⟨mt - 1, by omega⟩
  rw [run_guardrails_ok a inp (k + 1) gi go gen hmt hg]
  have hres := runSingleTurn_final a (initialMessages inp) [] [] true resp h1 h2
  have hq := runSingleTurn_query a (initialMessages inp) [] [] true (.ok resp)
  have hf := runSingleTurn_fired a (initialMessages inp) [] [] true (.ok resp)
  have hloop : runLoop gen go (k + 1) (k + 1) ⟨initialMessages inp, [], [], a, true, [], []⟩
      = (.error (.guardrailTripwireTriggered g),
         ⟨initialMessages inp, [], [], a, false,
          [] ++ [mkQuery a (initialMessages inp) []], [] ++ [a.name]⟩) := by
    simp only [runLoop]
    simp only [show k + 1 - (k + 1) = 0 from by omega, hgen]
    simp only [hres, hq, hf, hcg]
    rfl
  rw [hloop]
  rfl

theorem run_first_turn_final_pass (a : Agent) (inp : RunInput) (mt : Nat)
    (gi go : List Guardrail) (gen : Nat → Except String (List GeminiModelResponse))
    (resp : List GeminiModelResponse) (hmt : mt ≠ 0)
    (hg : checkGuardrails (a.inputGuardrails ++ gi) (.input (initialMessages inp)) = .ok ())
    (hgen : gen 0 = .ok resp)
    (h1 : (processModelResponse resp).handoffAgent = none)
    (h2 : (processModelResponse resp).toolCalls = [])
    (hcg : checkGuardrails (a.outputGuardrails ++ go)
        (.output (processModelResponse resp).finalOutput) = .ok ()) :
    Runner.run a inp mt gi go gen
      = ⟨.ok ⟨(processModelResponse resp).finalOutput, false, none, [], []⟩,
         [mkQuery a (initialMessages inp) []], [a.name]⟩ := by
  obtain ⟨k, rfl⟩ : ∃ k, mt = k + 1 := ⟨mt - 1, by omega⟩
  rw [run_guardrails_ok a inp (k + 1) gi go gen hmt hg]
  have hres := runSingleTurn_final a (initialMessages inp) [] [] true resp h1 h2
  have hq := runSingleTurn_query a (initialMessages inp) [] [] true (.ok resp)
  have hf := runSingleTurn_fired a (initialMessages inp) [] [] true (.ok resp)
  have hloop : runLoop gen go (k + 1) (k + 1) ⟨initialMessages inp, [], [], a, true, [], []⟩
      = (.ok ⟨(processModelResponse resp).finalOutput, false, none, [], []⟩,
         ⟨initialMessages inp, [], [], a, false,
          [] ++ [mkQuery a (initialMessages inp) []], [] ++ [a.name]⟩) := by
    simp only [runLoop]
    simp only [show k + 1 - (k + 1) = 0 from by omega, hgen]
    simp only [hres, hq, hf, hcg]
    rfl
  rw [hloop]
  rfl

theorem run_first_turn_handoff_err (a : Agent) (inp : RunInput) (mt : Nat)
    (gi go : List Guardrail) (gen : Nat → Except String (List GeminiModelResponse))
    (resp : List GeminiModelResponse) (hr : HandoffRequest) (m : String) (hmt : mt ≠ 0)
    (hg : checkGuardrails (a.inputGuardrails ++ gi) (.input (initialMessages inp)) = .ok ())
    (hgen : gen 0 = .ok resp)
    (h1 : (processModelResponse resp).handoffAgent = some hr)
    (h2 : getHandoffAgent hr.agentName a = .error m) :
    Runner.run a inp mt gi go gen
      = ⟨.error (.wrapped ("Error running agent: " ++ ("Failed to run model: " ++ m))),
         [mkQuery a (initialMessages inp) []], [a.name]⟩ := by
  obtain ⟨k, rfl⟩ : ∃ k, mt = k + 1 := ⟨mt - 1, by omega⟩
  rw [run_guardrails_ok a inp (k + 1) gi go gen hmt hg]
  have hres := runSingleTurn_handoff_err a (initialMessages inp) [] [] true resp hr m h1 h2
  have hq := runSingleTurn_query a (initialMessages inp) [] [] true (.ok resp)
  have hf := runSingleTurn_fired a (initialMessages inp) [] [] true (.ok resp)
  have hloop : runLoop gen go (k + 1) (k + 1) ⟨initialMessages inp, [], [], a, true, [], []⟩
      = (.error (.wrapped ("Failed to run model: " ++ m)),
         ⟨initialMessages inp, [], [], a, false,
          [] ++ [mkQuery a (initialMessages inp) []], [] ++ [a.name]⟩) := by
    simp only [runLoop]
    simp only [show k + 1 - (k + 1) = 0 from by omega, hgen]
    simp only [hres, hq, hf]
    rfl
  rw [hloop]
  rfl

/-- When every turn of an oracle succeeds but never classifies as a final
output (tool-call loops and resolvable handoff cycles alike), the loop
spends its entire fuel, issuing one query per unit of fuel, and ends in
`MaxTurnsExceeded`. -/
theorem runLoop_never_final (gen : Nat → Except String (List GeminiModelResponse))
    (go : List Guardrail) (mt : Nat)
    (H : ∀ (ag : Agent) (oi : List MessagePart) (gi : List ExecutedToolCall)
        (ri : List ReturnItem) (b : Bool) (k : Nat),
      ∃ step, (runSingleTurn ag oi gi ri b (gen k)).result = .ok step
        ∧ ∀ out, step.nextStep ≠ .finalOutput out) :
    ∀ fuel st,
      (runLoop gen go mt fuel st).1
          = .error (.maxTurnsExceeded ("Max turns (" ++ toString mt ++ ") exceeded"))
        ∧ ((runLoop gen go mt fuel st).2).queries.length = st.queries.length + fuel := by
  intro fuel
  induction fuel with
  | zero => intro st; exact ⟨rfl, rfl⟩
  | succ n ih =>
    intro st
    obtain ⟨step, hres, hnf⟩ := H st.currentAgent st.originalInput st.generatedItems
      st.returnItems st.shouldRunAgentStartHooks (mt - (n + 1))
    have hq := runSingleTurn_query st.currentAgent st.originalInput st.generatedItems
      st.returnItems st.shouldRunAgentStartHooks (gen (mt - (n + 1)))
    have hf := runSingleTurn_fired st.currentAgent st.originalInput st.generatedItems
      st.returnItems st.shouldRunAgentStartHooks (gen (mt - (n + 1)))
    cases hns : step.nextStep with
    | finalOutput out => exact absurd hns (hnf out)
    | handoff newAgent =>
      have hstep : runLoop gen go mt (n + 1) st = runLoop gen go mt n
          { originalInput := step.originalInput
            generatedItems := step.generatedItems
            returnItems := step.returnItems
            currentAgent := newAgent
            shouldRunAgentStartHooks := true
            queries := st.queries
              ++ [mkQuery st.currentAgent st.originalInput st.generatedItems]
            agentStarts := st.agentStarts
              ++ (if st.shouldRunAgentStartHooks then [st.currentAgent.name] else []) } := by
        simp only [runLoop, hres, hns, hq, hf]
      rw [hstep]
      obtain ⟨ih1, ih2⟩ := ih _
      refine ⟨ih1, ?_⟩
      rw [ih2]
      show (st.queries ++ [mkQuery st.currentAgent st.originalInput st.generatedItems]).length + n
        = st.queries.length + (n + 1)
      simp only [List.length_append, List.length_cons, List.length_nil]
      omega
    | runAgain =>
      have hstep : runLoop gen go mt (n + 1) st = runLoop gen go mt n
          { originalInput := step.originalInput
            generatedItems := step.generatedItems
            returnItems := step.returnItems
            currentAgent := st.currentAgent
            shouldRunAgentStartHooks := false
            queries := st.queries
              ++ [mkQuery st.currentAgent st.originalInput st.generatedItems]
            agentStarts := st.agentStarts
              ++ (if st.shouldRunAgentStartHooks then [st.currentAgent.name] else []) } := by
        simp only [runLoop, hres, hns, hq, hf]
      rw [hstep]
      obtain ⟨ih1, ih2⟩ := ih _
      refine ⟨ih1, ?_⟩
      rw [ih2]
      show (st.queries ++ [mkQuery st.currentAgent st.originalInput st.generatedItems]).length + n
        = st.queries.length + (n + 1)
      simp only [List.length_append, List.length_cons, List.length_nil]
      omega

/-! The claim theorems. -/

/-- Claim C1: for every call to `Runner.run` the turn counter never exceeds
`maxTurns` (whose default is 10): every run issues at most `maxTurns`
content-generation calls, and — for any `maxTurns` — when no turn within
the budget produces a final output (the model keeps requesting tool
calls or resolvable handoffs), the run rejects with `MaxTurnsExceeded`
after exactly `maxTurns` turns and returns no partial `AgentResult`; in
particular with `maxTurns = 1` and a model that always requests a tool
call, the run rejects with `MaxTurnsExceeded` after exactly one turn. -/
theorem run_turn_budget :
    (∀ (a : Agent) (inp : RunInput) (mt : Nat) (gi go : List Guardrail)
        (gen : Nat → Except String (List GeminiModelResponse)),
      ((Runner.run a inp mt gi go gen).queries).length ≤ mt)
    ∧ defaultMaxTurns = 10
    ∧ (∀ (a : Agent) (inp : RunInput) (mt : Nat) (gi go : List Guardrail)
        (gen : Nat → Except String (List GeminiModelResponse)),
      mt ≠ 0 →
      checkGuardrails (a.inputGuardrails ++ gi) (.input (initialMessages inp)) = .ok () →
      (∀ (ag : Agent) (oi : List MessagePart) (gi2 : List ExecutedToolCall)
          (ri : List ReturnItem) (b : Bool) (k : Nat),
        ∃ step, (runSingleTurn ag oi gi2 ri b (gen k)).result = .ok step
          ∧ ∀ out, step.nextStep ≠ .finalOutput out) →
      (Runner.run a inp mt gi go gen).result
          = .error (.maxTurnsExceeded ("Max turns (" ++ toString mt ++ ") exceeded"))
        ∧ ((Runner.run a inp mt gi go gen).queries).length = mt)
    ∧ (∀ (a : Agent) (inp : RunInput) (gi go : List Guardrail)
        (gen : Nat → Except String (List GeminiModelResponse)),
      checkGuardrails (a.inputGuardrails ++ gi) (.input (initialMessages inp)) = .ok () →
      (∀ k, ∃ resp, gen k = .ok resp
        ∧ (processModelResponse resp).handoffAgent = none
        ∧ (processModelResponse resp).toolCalls ≠ []) →
      (Runner.run a inp 1 gi go gen).result
          = .error (.maxTurnsExceeded "Max turns (1) exceeded")
        ∧ ((Runner.run a inp 1 gi go gen).queries).length = 1) := by
  have key : ∀ (a : Agent) (inp : RunInput) (mt : Nat) (gi go : List Guardrail)
      (gen : Nat → Except String (List GeminiModelResponse)),
      mt ≠ 0 →
      checkGuardrails (a.inputGuardrails ++ gi) (.input (initialMessages inp)) = .ok () →
      (∀ (ag : Agent) (oi : List MessagePart) (gi2 : List ExecutedToolCall)
          (ri : List ReturnItem) (b : Bool) (k : Nat),
        ∃ step, (runSingleTurn ag oi gi2 ri b (gen k)).result = .ok step
          ∧ ∀ out, step.nextStep ≠ .finalOutput out) →
      (Runner.run a inp mt gi go gen).result
          = .error (.maxTurnsExceeded ("Max turns (" ++ toString mt ++ ") exceeded"))
        ∧ ((Runner.run a inp mt gi go gen).queries).length = mt := by
    intro a inp mt gi go gen hmt hg H
    rw [run_guardrails_ok a inp mt gi go gen hmt hg]
    obtain ⟨h1, h2⟩ := runLoop_never_final gen go mt H mt
      ⟨initialMessages inp, [], [], a, true, [], []⟩
    constructor
    · show wrapOuter (runLoop gen go mt mt ⟨initialMessages inp, [], [], a, true, [], []⟩).1 = _
      rw [h1]
      rfl
    · show ((runLoop gen go mt mt ⟨initialMessages inp, [], [], a, true, [], []⟩).2).queries.length = mt
      rw [h2]
      simp
  refine ⟨?_, rfl, key, ?_⟩
  · intro a inp mt gi go gen
    by_cases hmt : mt = 0
    · subst hmt; simp [Runner.run]
    · cases hg : checkGuardrails (a.inputGuardrails ++ gi) (.input (initialMessages inp)) with
      | error g => simp [Runner.run, hmt, hg]
      | ok u =>
        have hrr : (Runner.run a inp mt gi go gen).queries
            = ((runLoop gen go mt mt ⟨initialMessages inp, [], [], a, true, [], []⟩).2).queries := by
          simp [Runner.run, hmt, hg]
        rw [hrr]
        obtain ⟨qs, as2, e1, _, e3, _, _, _⟩ :=
          runLoop_invariants gen go mt mt ⟨initialMessages inp, [], [], a, true, [], []⟩
        rw [e1]
        simpa using e3
  · intro a inp gi go gen hg hresp
    have H : ∀ (ag : Agent) (oi : List MessagePart) (gi2 : List ExecutedToolCall)
        (ri : List ReturnItem) (b : Bool) (k : Nat),
        ∃ step, (runSingleTurn ag oi gi2 ri b (gen k)).result = .ok step
          ∧ ∀ out, step.nextStep ≠ .finalOutput out := by
      intro ag oi gi2 ri b k
      obtain ⟨resp, hgen, hha, htc⟩ := hresp k
      rw [hgen]
      exact ⟨_, runSingleTurn_tools ag oi gi2 ri b resp hha htc,
        by intro out h; cases h⟩
    obtain ⟨h1, h2⟩ := key a inp 1 gi go gen (by decide) hg H
    exact ⟨by rw [h1]; rfl, h2⟩

/-- Witness for C1 at a concrete agent and oracle, exercising both the
general budget clause (at `maxTurns = 3`) and the `maxTurns = 1`
scenario. -/
theorem run_turn_budget_witness :
    ((Runner.run agentA (.str "hi") 1 [] [] genToolForever).queries).length ≤ 1
    ∧ ((Runner.run agentA (.str "hi") 3 [] [] genToolForever).result
        = .error (.maxTurnsExceeded ("Max turns (" ++ toString 3 ++ ") exceeded"))
      ∧ ((Runner.run agentA (.str "hi") 3 [] [] genToolForever).queries).length = 3)
    ∧ ((Runner.run agentA (.str "hi") 1 [] [] genToolForever).result
        = .error (.maxTurnsExceeded "Max turns (1) exceeded")
      ∧ ((Runner.run agentA (.str "hi") 1 [] [] genToolForever).queries).length = 1) :=
  ⟨run_turn_budget.1 agentA (.str "hi") 1 [] [] genToolForever,
   run_turn_budget.2.2.1 agentA (.str "hi") 3 [] [] genToolForever (by decide) rfl
      (fun ag oi gi2 ri b _ =>
        ⟨_, runSingleTurn_tools ag oi gi2 ri b respTool rfl (by decide),
         fun out h => by cases h⟩),
   run_turn_budget.2.2.2 agentA (.str "hi") [] [] genToolForever rfl
      (fun _ => ⟨respTool, rfl, rfl, by decide⟩)⟩

/-- Claim C2 (amended): response classification is deterministic with
priority handoff > tool calls > final text.  A response carrying a
synthetic handoff invocation transitions the turn to handoff (once the
target resolves) and discards every non-handoff tool call of the same
response — the generated-items list is unchanged, so nothing is executed;
otherwise a response with ordinary tool invocations executes them and
runs the loop again; otherwise the run finalizes, with `finalOutput`
equal to the concatenation of all text fragments in response order when
that concatenation contains a non-whitespace character, and equal to the
empty string otherwise (amendment: the source keeps the concatenation
only when its trim is non-empty). -/
theorem response_classification (a : Agent) (oi : List MessagePart)
    (gi : List ExecutedToolCall) (ri : List ReturnItem) (b : Bool)
    (resp : List GeminiModelResponse) :
    (∀ hr na, (processModelResponse resp).handoffAgent = some hr →
      getHandoffAgent hr.agentName a = .ok na →
      ∃ step, (runSingleTurn a oi gi ri b (.ok resp)).result = .ok step
        ∧ step.nextStep = .handoff na
        ∧ step.generatedItems = gi)
    ∧ ((processModelResponse resp).handoffAgent = none →
        (processModelResponse resp).toolCalls ≠ [] →
      ∃ step, (runSingleTurn a oi gi ri b (.ok resp)).result = .ok step
        ∧ step.nextStep = .runAgain
        ∧ step.generatedItems = gi ++ executeToolCalls (processModelResponse resp).toolCalls a)
    ∧ ((processModelResponse resp).handoffAgent = none →
        (processModelResponse resp).toolCalls = [] →
      ∃ step, (runSingleTurn a oi gi ri b (.ok resp)).result = .ok step
        ∧ step.nextStep = .finalOutput
            (if jsTrim (textConcat resp) ≠ "" then textConcat resp else "")
        ∧ step.generatedItems = gi) := by
  refine ⟨?_, ?_, ?_⟩
  · intro hr na h1 h2
    exact ⟨_, runSingleTurn_handoff_ok a oi gi ri b resp hr na h1 h2, rfl, rfl⟩
  · intro h1 h2
    exact ⟨_, runSingleTurn_tools a oi gi ri b resp h1 h2, rfl, rfl⟩
  · intro h1 h2
    refine ⟨_, runSingleTurn_final a oi gi ri b resp h1 h2, ?_, rfl⟩
    show NextStep.finalOutput (processModelResponse resp).finalOutput = _
    rw [processModelResponse_finalOutput]

/-- Counterexample for C2 as frozen: a response whose only text fragment
is a single space finalizes with `finalOutput` empty, not with the
concatenation of the text fragments, which is the one-space string. -/
theorem response_text_whitespace_cex :
    textConcat respBlank = " "
    ∧ (processModelResponse respBlank).handoffAgent = none
    ∧ (processModelResponse respBlank).toolCalls = []
    ∧ (∃ step, (runSingleTurn agentA [] [] [] true (.ok respBlank)).result = .ok step
        ∧ step.nextStep = .finalOutput "")
    ∧ ("" : String) ≠ " " := by
  refine ⟨rfl, rfl, rfl, ⟨_, rfl, rfl⟩, by decide⟩

/-- Witness for C2 exercising all three classification branches. -/
theorem response_classification_witness :
    (∃ step, (runSingleTurn agentA [] [] [] true (.ok respHandoff)).result = .ok step
      ∧ step.nextStep = .handoff agentB ∧ step.generatedItems = [])
    ∧ (∃ step, (runSingleTurn agentA [] [] [] true (.ok respTool)).result = .ok step
      ∧ step.nextStep = .runAgain
      ∧ step.generatedItems
          = [] ++ executeToolCalls (processModelResponse respTool).toolCalls agentA)
    ∧ (∃ step, (runSingleTurn agentA [] [] [] true (.ok respDone)).result = .ok step
      ∧ step.nextStep = .finalOutput
          (if jsTrim (textConcat respDone) ≠ "" then textConcat respDone else "")
      ∧ step.generatedItems = []) :=
  ⟨(response_classification agentA [] [] [] true respHandoff).1
      ⟨"B", some "needs B"⟩ agentB rfl rfl,
   (response_classification agentA [] [] [] true respTool).2.1 rfl (by decide),
   (response_classification agentA [] [] [] true respDone).2.2 rfl rfl⟩

/-- Claim C3: a tripped guardrail always aborts the run with
`GuardrailTripwireTriggered` and no output: a tripped input guardrail
aborts before any content-generation call is issued (the query trace is
empty); when the first turn classifies as final output and the output
pipeline trips, the run rejects instead of returning `finalOutput`; any
run that does return a result had a fully passing output pipeline; and
each pipeline inspects results in registration order, raising on the
first tripped guardrail. -/
theorem guardrail_abort_semantics :
    (∀ (a : Agent) (inp : RunInput) (mt : Nat) (gi go : List Guardrail)
        (gen : Nat → Except String (List GeminiModelResponse)) (g : String),
      mt ≠ 0 →
      checkGuardrails (a.inputGuardrails ++ gi) (.input (initialMessages inp)) = .error g →
      (Runner.run a inp mt gi go gen).result = .error (.guardrailTripwireTriggered g)
        ∧ (Runner.run a inp mt gi go gen).queries = [])
    ∧ (∀ (a : Agent) (inp : RunInput) (mt : Nat) (gi go : List Guardrail)
        (gen : Nat → Except String (List GeminiModelResponse))
        (resp : List GeminiModelResponse) (g : String),
      mt ≠ 0 →
      checkGuardrails (a.inputGuardrails ++ gi) (.input (initialMessages inp)) = .ok () →
      gen 0 = .ok resp →
      (processModelResponse resp).handoffAgent = none →
      (processModelResponse resp).toolCalls = [] →
      checkGuardrails (a.outputGuardrails ++ go)
          (.output (processModelResponse resp).finalOutput) = .error g →
      (Runner.run a inp mt gi go gen).result = .error (.guardrailTripwireTriggered g))
    ∧ (∀ (a : Agent) (inp : RunInput) (mt : Nat) (gi go : List Guardrail)
        (gen : Nat → Except String (List GeminiModelResponse)) (r : AgentResult),
      (Runner.run a inp mt gi go gen).result = .ok r →
      ∃ ag : Agent, checkGuardrails (ag.outputGuardrails ++ go) (.output r.finalOutput) = .ok ())
    ∧ (∀ (gs : List Guardrail) (v : GuardVal),
      checkGuardrails gs v
        = (match firstTripped gs v with
            | some g => .error g.name
            | none => .ok ())) := by
  refine ⟨?_, ?_, ?_, checkGuardrails_eq_firstTripped⟩
  · intro a inp mt gi go gen g hmt hg
    rw [run_guardrails_trip a inp mt gi go gen g hmt hg]
    exact ⟨rfl, rfl⟩
  · intro a inp mt gi go gen resp g hmt hg hgen h1 h2 hcg
    rw [run_first_turn_final_trip a inp mt gi go gen resp g hmt hg hgen h1 h2 hcg]
  · intro a inp mt gi go gen r h
    by_cases hmt : mt = 0
    · subst hmt
      simp [Runner.run] at h
    · cases hg : checkGuardrails (a.inputGuardrails ++ gi) (.input (initialMessages inp)) with
      | error g =>
        rw [run_guardrails_trip a inp mt gi go gen g hmt hg] at h
        simp at h
      | ok u =>
        cases u
        rw [run_guardrails_ok a inp mt gi go gen hmt hg] at h
        rw [show (⟨wrapOuter (runLoop gen go mt mt ⟨initialMessages inp, [], [], a, true, [], []⟩).1,
            ((runLoop gen go mt mt ⟨initialMessages inp, [], [], a, true, [], []⟩).2).queries,
            ((runLoop gen go mt mt ⟨initialMessages inp, [], [], a, true, [], []⟩).2).agentStarts⟩
              : RunOutcome).result
          = wrapOuter (runLoop gen go mt mt ⟨initialMessages inp, [], [], a, true, [], []⟩).1
          from rfl] at h
        rw [wrapOuter_ok] at h
        exact runLoop_ok_output gen go mt mt _ r h

/-- Witness for C3 at concrete tripping agents. -/
theorem guardrail_abort_semantics_witness :
    ((Runner.run agentG (.str "hi") 5 [] [] genDoneForever).result
        = .error (.guardrailTripwireTriggered "block")
      ∧ (Runner.run agentG (.str "hi") 5 [] [] genDoneForever).queries = [])
    ∧ (Runner.run agentOG (.str "hi") 5 [] [] genDoneForever).result
        = .error (.guardrailTripwireTriggered "block")
    ∧ (∃ ag : Agent, checkGuardrails (ag.outputGuardrails ++ [])
        (.output "done") = .ok ()) :=
  ⟨guardrail_abort_semantics.1 agentG (.str "hi") 5 [] [] genDoneForever "block"
      (by decide) rfl,
   guardrail_abort_semantics.2.1 agentOG (.str "hi") 5 [] [] genDoneForever respDone "block"
      (by decide) rfl rfl rfl rfl rfl,
   guardrail_abort_semantics.2.2.1 agentB (.str "hi") 5 [] [] genDoneForever
      ⟨"done", false, none, [], []⟩ rfl⟩

/-- Claim C4: tool calls requested in one model response are executed
sequentially preserving request order (element `i` of the output is the
execution of request `i`); a request whose name is not in the agent's
own tool catalog yields the structured result carrying the message
`Tool <name> not found` instead of failing the run; an exception thrown
by `execute` is converted to the same structured error shape; and a turn
with tool calls never aborts the run. -/
theorem tool_execution_recoverable (agent : Agent) (calls : List ToolCallReq) :
    (executeToolCalls calls agent).length = calls.length
    ∧ (∀ i c, calls.get? i = some c →
        (executeToolCalls calls agent).get? i = some (execOneToolCall agent c))
    ∧ (∀ c : ToolCallReq, agent.tools.find? (fun t => t.name == c.name) = none →
        execOneToolCall agent c
          = ⟨c.name, c.parameters, .err ("Tool " ++ c.name ++ " not found"), false⟩)
    ∧ (∀ (c : ToolCallReq) (t : Tool) (m : String),
        agent.tools.find? (fun t => t.name == c.name) = some t →
        t.execute c.parameters = .error m →
        execOneToolCall agent c = ⟨c.name, c.parameters, .err m, t.showInThread⟩)
    ∧ (∀ (oi : List MessagePart) (gi : List ExecutedToolCall) (ri : List ReturnItem)
        (b : Bool) (resp : List GeminiModelResponse),
      (processModelResponse resp).handoffAgent = none →
      ∃ step, (runSingleTurn agent oi gi ri b (.ok resp)).result = .ok step) := by
  refine ⟨by simp [executeToolCalls], ?_, ?_, ?_, ?_⟩
  · intro i c h
    unfold executeToolCalls
    rw [List.get?_map, h]
    rfl
  · intro c h
    simp [execOneToolCall, h]
  · intro c t m h1 h2
    simp [execOneToolCall, h1, h2]
  · intro oi gi ri b resp h1
    by_cases h2 : (processModelResponse resp).toolCalls = []
    · exact ⟨_, runSingleTurn_final agent oi gi ri b resp h1 h2⟩
    · exact ⟨_, runSingleTurn_tools agent oi gi ri b resp h1 h2⟩

/-- Witness for C4 on an agent with a throwing tool. -/
theorem tool_execution_recoverable_witness :
    ((executeToolCalls [⟨"nope", []⟩, ⟨"bad", []⟩] agentC).get? 0
        = some (execOneToolCall agentC ⟨"nope", []⟩))
    ∧ execOneToolCall agentC ⟨"nope", []⟩
        = ⟨"nope", [], .err "Tool nope not found", false⟩
    ∧ execOneToolCall agentC ⟨"bad", []⟩
        = ⟨"bad", [], .err "kaboom", false⟩
    ∧ (∃ step, (runSingleTurn agentC [] [] [] true (.ok respTool)).result = .ok step) :=
  ⟨(tool_execution_recoverable agentC [⟨"nope", []⟩, ⟨"bad", []⟩]).2.1 0 ⟨"nope", []⟩ rfl,
   (tool_execution_recoverable agentC []).2.2.1 ⟨"nope", []⟩ rfl,
   (tool_execution_recoverable agentC []).2.2.2.1 ⟨"bad", []⟩ exThrowTool "kaboom" rfl rfl,
   (tool_execution_recoverable agentC []).2.2.2.2 [] [] [] true respTool rfl⟩

/-- Claim C5: a guardrail whose `validate` throws is logged and treated
as not tripped, in both pipelines: removing a throwing guardrail from a
pipeline does not change its outcome, a pipeline of throwing guardrails
passes, a run whose input guardrails all throw still issues a model
call, and a run whose output guardrails all throw still returns its
final output. -/
theorem guardrail_exceptions_fail_open :
    (∀ (gs₁ : List Guardrail) (g : Guardrail) (gs₂ : List Guardrail)
        (v : GuardVal) (m : String),
      g.validate v = .error m →
      checkGuardrails (gs₁ ++ g :: gs₂) v = checkGuardrails (gs₁ ++ gs₂) v)
    ∧ (∀ (gs : List Guardrail) (v : GuardVal),
      (∀ g ∈ gs, ∃ m, g.validate v = .error m) → checkGuardrails gs v = .ok ())
    ∧ (∀ (a : Agent) (inp : RunInput) (mt : Nat) (gi go : List Guardrail)
        (gen : Nat → Except String (List GeminiModelResponse)),
      mt ≠ 0 →
      (∀ g ∈ a.inputGuardrails ++ gi,
        ∃ m, g.validate (.input (initialMessages inp)) = .error m) →
      (Runner.run a inp mt gi go gen).queries ≠ [])
    ∧ (∀ (a : Agent) (inp : RunInput) (mt : Nat) (gi go : List Guardrail)
        (gen : Nat → Except String (List GeminiModelResponse))
        (resp : List GeminiModelResponse),
      mt ≠ 0 →
      checkGuardrails (a.inputGuardrails ++ gi) (.input (initialMessages inp)) = .ok () →
      gen 0 = .ok resp →
      (processModelResponse resp).handoffAgent = none →
      (processModelResponse resp).toolCalls = [] →
      (∀ g ∈ a.outputGuardrails ++ go,
        ∃ m, g.validate (.output (processModelResponse resp).finalOutput) = .error m) →
      (Runner.run a inp mt gi go gen).result
        = .ok ⟨(processModelResponse resp).finalOutput, false, none, [], []⟩) := by
  refine ⟨checkGuardrails_skip, checkGuardrails_allThrow, ?_, ?_⟩
  · intro a inp mt gi go gen hmt hthrow
    have hg := checkGuardrails_allThrow (a.inputGuardrails ++ gi)
      (.input (initialMessages inp)) hthrow
    rw [run_guardrails_ok a inp mt gi go gen hmt hg]
    obtain ⟨k, rfl⟩ : ∃ k, mt = k + 1 := ⟨mt - 1, by omega⟩
    obtain ⟨qs, as2, e1, _⟩ := runLoop_head_traces gen go (k + 1) k
      ⟨initialMessages inp, [], [], a, true, [], []⟩
    show ((runLoop gen go (k + 1) (k + 1) ⟨initialMessages inp, [], [], a, true, [], []⟩).2).queries ≠ []
    rw [e1]
    simp
  · intro a inp mt gi go gen resp hmt hg hgen h1 h2 hthrow
    have hcg := checkGuardrails_allThrow (a.outputGuardrails ++ go)
      (.output (processModelResponse resp).finalOutput) hthrow
    rw [run_first_turn_final_pass a inp mt gi go gen resp hmt hg hgen h1 h2 hcg]

/-- Witness for C5 with a throwing guardrail on both pipelines. -/
theorem guardrail_exceptions_fail_open_witness :
    checkGuardrails ([] ++ throwGuardrail :: [passGuardrail]) (.output "done")
        = checkGuardrails ([] ++ [passGuardrail]) (.output "done")
    ∧ checkGuardrails [throwGuardrail] (.input []) = .ok ()
    ∧ (Runner.run agentT (.str "hi") 5 [] [] genDoneForever).queries ≠ []
    ∧ (Runner.run agentT (.str "hi") 5 [] [] genDoneForever).result
        = .ok ⟨(processModelResponse respDone).finalOutput, false, none, [], []⟩ :=
  ⟨guardrail_exceptions_fail_open.1 [] throwGuardrail [passGuardrail] (.output "done")
      "exploded" rfl,
   guardrail_exceptions_fail_open.2.1 [throwGuardrail] (.input [])
      (by intro g hg; rw [List.mem_singleton] at hg; exact ⟨"exploded", by rw [hg]; exact rfl⟩),
   guardrail_exceptions_fail_open.2.2.1 agentT (.str "hi") 5 [] [] genDoneForever
      (by decide)
      (by intro g hg; simp [agentT, Agent.inputGuardrails] at hg
          exact ⟨"exploded", by rw [hg]; exact rfl⟩),
   guardrail_exceptions_fail_open.2.2.2 agentT (.str "hi") 5 [] [] genDoneForever respDone
      (by decide) rfl rfl rfl rfl
      (by intro g hg; simp [agentT, Agent.outputGuardrails] at hg
          exact ⟨"exploded", by rw [hg]; exact rfl⟩)⟩

/-- Claim C6: a handoff whose target cannot be resolved against the
current agent's handoffs list fails loudly — resolution errors exactly
when the lookup finds no match, and the run rejects with the wrapped
fatal error; when the target resolves, the next turn's query is built
for the target agent and `onAgentStart` fires exactly once for the
switch (the firing trace starts with the two activations). -/
theorem handoff_resolution :
    (∀ (target : String) (a : Agent),
      getHandoffAgent target a = .error ("Cannot find handoff agent named " ++ target)
        ↔ a.handoffs.find? (fun h => handoffTargetName h == target) = none)
    ∧ (∀ (a : Agent) (inp : RunInput) (mt : Nat) (gi go : List Guardrail)
        (gen : Nat → Except String (List GeminiModelResponse))
        (resp : List GeminiModelResponse) (hr : HandoffRequest) (m : String),
      mt ≠ 0 →
      checkGuardrails (a.inputGuardrails ++ gi) (.input (initialMessages inp)) = .ok () →
      gen 0 = .ok resp →
      (processModelResponse resp).handoffAgent = some hr →
      getHandoffAgent hr.agentName a = .error m →
      (Runner.run a inp mt gi go gen).result
        = .error (.wrapped ("Error running agent: " ++ ("Failed to run model: " ++ m))))
    ∧ (∀ (a : Agent) (inp : RunInput) (mt : Nat) (gi go : List Guardrail)
        (gen : Nat → Except String (List GeminiModelResponse))
        (resp : List GeminiModelResponse) (hr : HandoffRequest) (na : Agent),
      2 ≤ mt →
      checkGuardrails (a.inputGuardrails ++ gi) (.input (initialMessages inp)) = .ok () →
      gen 0 = .ok resp →
      (processModelResponse resp).handoffAgent = some hr →
      getHandoffAgent hr.agentName a = .ok na →
      (Runner.run a inp mt gi go gen).queries.get? 1
          = some (mkQuery na (initialMessages inp) [])
        ∧ (Runner.run a inp mt gi go gen).agentStarts.take 2 = [a.name, na.name]) := by
  refine ⟨?_, ?_, ?_⟩
  · intro target a
    unfold getHandoffAgent
    cases h : a.handoffs.find? (fun h => handoffTargetName h == target) with
    | some hh => simp
    | none => simp
  · intro a inp mt gi go gen resp hr m hmt hg hgen h1 h2
    rw [run_first_turn_handoff_err a inp mt gi go gen resp hr m hmt hg hgen h1 h2]
  · intro a inp mt gi go gen resp hr na hmt hg hgen h1 h2
    obtain ⟨k, rfl⟩ : ∃ k, mt = k + 2 := ⟨mt - 2, by omega⟩
    rw [run_guardrails_ok a inp (k + 2) gi go gen (by omega) hg]
    have hres := runSingleTurn_handoff_ok a (initialMessages inp) [] [] true resp hr na h1 h2
    have hq := runSingleTurn_query a (initialMessages inp) [] [] true (.ok resp)
    have hf := runSingleTurn_fired a (initialMessages inp) [] [] true (.ok resp)
    have hstep : runLoop gen go (k + 2) (k + 2) ⟨initialMessages inp, [], [], a, true, [], []⟩
        = runLoop gen go (k + 2) (k + 1)
          ⟨initialMessages inp, [],
           [] ++ [.handoffRecord hr.agentName hr.reason], na, true,
           [] ++ [mkQuery a (initialMessages inp) []], [] ++ [a.name]⟩ := by
      simp only [runLoop]
      simp only [show k + 2 - (k + 2) = 0 from by omega, hgen]
      simp only [hres, hq, hf]
      rfl
    rw [hstep]
    obtain ⟨qs, as2, e1, e2⟩ := runLoop_head_traces gen go (k + 2) k
      ⟨initialMessages inp, [],
       [] ++ [.handoffRecord hr.agentName hr.reason], na, true,
       [] ++ [mkQuery a (initialMessages inp) []], [] ++ [a.name]⟩
    constructor
    · show ((runLoop gen go (k + 2) (k + 1) _).2).queries.get? 1 = _
      rw [e1]
      simp
    · show ((runLoop gen go (k + 2) (k + 1) _).2).agentStarts.take 2 = _
      rw [e2]
      simp

/-- Witness for C6: unresolvable handoff to `C`, resolvable handoff to `B`. -/
theorem handoff_resolution_witness :
    getHandoffAgent "C" agentA = .error ("Cannot find handoff agent named " ++ "C")
    ∧ (Runner.run agentA (.str "q") 5 [] [] genHandoffBad).result
        = .error (.wrapped ("Error running agent: "
            ++ ("Failed to run model: " ++ "Cannot find handoff agent named C")))
    ∧ ((Runner.run agentA (.str "q") 10 [] [] genHandoffThenDone).queries.get? 1
          = some (mkQuery agentB (initialMessages (.str "q")) [])
        ∧ (Runner.run agentA (.str "q") 10 [] [] genHandoffThenDone).agentStarts.take 2
          = [agentA.name, agentB.name]) :=
  ⟨(handoff_resolution.1 "C" agentA).mpr rfl,
   handoff_resolution.2.1 agentA (.str "q") 5 [] [] genHandoffBad respHandoffBad
      ⟨"C", some "r"⟩ "Cannot find handoff agent named C" (by decide) rfl rfl rfl rfl,
   handoff_resolution.2.2 agentA (.str "q") 10 [] [] genHandoffThenDone respHandoff
      ⟨"B", some "needs B"⟩ agentB (by decide) rfl rfl rfl rfl⟩

/-- Claim C7: the tool catalog sent to the content-generation client on
each turn is the union of the agent's own tools and one synthetic
handoff tool per registered handoff, each synthetic tool named
`handoff_to_` followed by the target agent's name and declaring an
OBJECT schema with the single required string parameter `reason`. -/
theorem turn_tool_catalog (a : Agent) (oi : List MessagePart)
    (gi : List ExecutedToolCall) (ri : List ReturnItem) (b : Bool)
    (g : Except String (List GeminiModelResponse)) :
    ((runSingleTurn a oi gi ri b g).query.tools).getD []
        = a.tools.map CatalogEntry.ownTool
          ++ a.handoffs.map (fun h => CatalogEntry.synthetic (synthHandoffDecl h))
    ∧ (∀ h : Handoff,
        (synthHandoffDecl h).name = "handoff_to_" ++ handoffTargetName h
        ∧ (synthHandoffDecl h).schemaType = "OBJECT"
        ∧ (synthHandoffDecl h).properties
            = [("reason", ⟨"STRING", "Reason for handing off to this agent"⟩)]
        ∧ (synthHandoffDecl h).required = ["reason"]) := by
  constructor
  · rw [runSingleTurn_query]
    show (mkQuery a oi gi).tools.getD [] = _
    have hcat : (mkQuery a oi gi).tools
        = (if (allToolsOf a).isEmpty then none else some (allToolsOf a)) := rfl
    rw [hcat]
    by_cases he : (allToolsOf a).isEmpty
    · rw [if_pos he]
      rw [List.isEmpty_iff] at he
      show ([] : List CatalogEntry) = _
      rw [show a.tools.map CatalogEntry.ownTool
          ++ a.handoffs.map (fun h => CatalogEntry.synthetic (synthHandoffDecl h))
          = allToolsOf a from rfl, he]
    · rw [if_neg he]
      rfl
  · intro h
    exact ⟨rfl, rfl, rfl, rfl⟩

/-- Claim C8: `Runner.run` never mutates the caller-supplied input: the
working `originalInput` threaded through the loop is preserved by every
turn and by the whole loop, prompt assembly builds a fresh list that
embeds the caller's messages unchanged between the inject messages and
the reconstructed tool-call entries, and every query the run ever issues
contains the original input messages element-wise unchanged. -/
theorem caller_input_immutable :
    (∀ (gen : Nat → Except String (List GeminiModelResponse)) (go : List Guardrail)
        (mt fuel : Nat) (st : LoopState),
      ((runLoop gen go mt fuel st).2).originalInput = st.originalInput)
    ∧ (∀ (a : Agent) (oi : List MessagePart) (gi : List ExecutedToolCall)
        (ri : List ReturnItem) (b : Bool) (g : Except String (List GeminiModelResponse))
        (step : SingleStepResult),
      (runSingleTurn a oi gi ri b g).result = .ok step → step.originalInput = oi)
    ∧ (∀ (a : Agent) (oi : List MessagePart) (gi : List ExecutedToolCall),
      buildMessages a oi gi
        = a.injectMessages ++ oi
          ++ ((gi.enum).flatMap (fun p => reconstructToolMessages p.1 p.2)))
    ∧ (∀ (a : Agent) (inp : RunInput) (mt : Nat) (gi go : List Guardrail)
        (gen : Nat → Except String (List GeminiModelResponse)) (q : ModelQuery),
      q ∈ (Runner.run a inp mt gi go gen).queries →
      ∃ (ag : Agent) (items : List ExecutedToolCall),
        q.contents = ag.injectMessages ++ initialMessages inp
          ++ ((items.enum).flatMap (fun p => reconstructToolMessages p.1 p.2))) := by
  refine ⟨?_, runSingleTurn_ok_originalInput, fun a oi gi => rfl, ?_⟩
  · intro gen go mt fuel st
    obtain ⟨qs, as2, _, _, _, _, e5, _⟩ := runLoop_invariants gen go mt fuel st
    exact e5
  · intro a inp mt gi go gen q hq
    by_cases hmt : mt = 0
    · subst hmt
      simp [Runner.run] at hq
    · cases hg : checkGuardrails (a.inputGuardrails ++ gi) (.input (initialMessages inp)) with
      | error g =>
        rw [run_guardrails_trip a inp mt gi go gen g hmt hg] at hq
        simp at hq
      | ok u =>
        cases u
        rw [run_guardrails_ok a inp mt gi go gen hmt hg] at hq
        obtain ⟨qs, as2, e1, _, _, _, _, e6⟩ := runLoop_invariants gen go mt mt
          ⟨initialMessages inp, [], [], a, true, [], []⟩
        rw [show ((⟨wrapOuter (runLoop gen go mt mt ⟨initialMessages inp, [], [], a, true, [], []⟩).1,
            ((runLoop gen go mt mt ⟨initialMessages inp, [], [], a, true, [], []⟩).2).queries,
            ((runLoop gen go mt mt ⟨initialMessages inp, [], [], a, true, [], []⟩).2).agentStarts⟩
              : RunOutcome).queries)
          = ((runLoop gen go mt mt ⟨initialMessages inp, [], [], a, true, [], []⟩).2).queries
          from rfl, e1] at hq
        simp only [List.nil_append] at hq
        obtain ⟨ag, items, hq2⟩ := e6 q hq
        exact ⟨ag, items, by rw [hq2]; exact rfl⟩

/-- Witness for C8 on a concrete single-turn run. -/
theorem caller_input_immutable_witness :
    wStep.originalInput = initialMessages (.str "hi")
    ∧ (∃ (ag : Agent) (items : List ExecutedToolCall),
        (mkQuery agentB (initialMessages (.str "hi")) []).contents
          = ag.injectMessages ++ initialMessages (.str "hi")
            ++ ((items.enum).flatMap (fun p => reconstructToolMessages p.1 p.2))) :=
  ⟨caller_input_immutable.2.1 agentB (initialMessages (.str "hi")) [] [] true
      (.ok respDone) wStep rfl,
   caller_input_immutable.2.2.2 agentB (.str "hi") 3 [] [] genDoneForever
      (mkQuery agentB (initialMessages (.str "hi")) [])
      (by rw [show (Runner.run agentB (.str "hi") 3 [] [] genDoneForever).queries
            = [mkQuery agentB (initialMessages (.str "hi")) []] from rfl]
          exact List.mem_singleton.mpr rfl)⟩

/-- Claim C9 (code behaviour at the failing input): in a run that uses a
tool, performs a handoff from `A` to `B`, and then finalizes, the
returned `AgentResult` has `handoffPerformed = false` and no
`handoffAgent` even though the handoff occurred (the activation trace is
`A` then `B`), while `toolCalls` does retain the pre-handoff tool
invocation. -/
theorem run_handoff_fields_hardcoded :
    (Runner.run agentA (.str "q") 10 [] [] genToolHandoffDone).result
      = .ok ⟨"done", false, none,
             [⟨"lookup", [("q", "x")], .ok "v", true⟩],
             [.toolItem ⟨"lookup", [("q", "x")], .ok "v", true⟩,
              .handoffRecord "B" (some "needs B")]⟩
    ∧ (Runner.run agentA (.str "q") 10 [] [] genToolHandoffDone).agentStarts
      = ["A", "B"] :=
  ⟨rfl, rfl⟩

/-- Claim C10: when a response bundles several handoff invocations, the
extracted handoff targets the first handoff-named call in response
order; every handoff-named call is removed from the ordinary tool-call
list; and no executed item of a turn ever carries a handoff name, so a
handoff invocation is never executed as a tool. -/
theorem first_handoff_wins (resp : List GeminiModelResponse) :
    ((processModelResponse resp).handoffAgent.map (fun hr => hr.agentName))
      = (((rawToolCalls resp).find? (fun c => isHandoffName c.name)).map
          (fun c => handoffTargetOfName c.name))
    ∧ (∀ hr, (processModelResponse resp).handoffAgent = some hr →
        ∃ i c, (rawToolCalls resp).get? i = some c
          ∧ isHandoffName c.name = true
          ∧ hr.agentName = handoffTargetOfName c.name
          ∧ ∀ j c2, j < i → (rawToolCalls resp).get? j = some c2
              → isHandoffName c2.name = false)
    ∧ (∀ c ∈ (processModelResponse resp).toolCalls, isHandoffName c.name = false)
    ∧ (∀ (a : Agent) (hr : HandoffRequest) (na : Agent) (oi : List MessagePart)
        (gi : List ExecutedToolCall) (ri : List ReturnItem) (b : Bool),
      (processModelResponse resp).handoffAgent = some hr →
      getHandoffAgent hr.agentName a = .ok na →
      ∃ step, (runSingleTurn a oi gi ri b (.ok resp)).result = .ok step
        ∧ step.nextStep = .handoff na ∧ step.generatedItems = gi)
    ∧ (∀ (a : Agent) (oi : List MessagePart) (gi : List ExecutedToolCall)
        (ri : List ReturnItem) (b : Bool) (step : SingleStepResult),
      (runSingleTurn a oi gi ri b (.ok resp)).result = .ok step →
      ∀ e ∈ step.generatedItems, e ∈ gi ∨ isHandoffName e.name = false) := by
  have hTC : ∀ c ∈ (processModelResponse resp).toolCalls, isHandoffName c.name = false := by
    intro c hc
    simp only [processModelResponse] at hc
    have h2 := (List.mem_filter.mp hc).2
    simpa using h2
  refine ⟨?_, ?_, hTC, ?_, ?_⟩
  · simp only [processModelResponse]
    rw [Option.map_map]
    rfl
  · intro hr h
    simp only [processModelResponse] at h
    rw [Option.map_eq_some'] at h
    obtain ⟨c0, hfind, hc0⟩ := h
    obtain ⟨i, hi1, hi2, hi3⟩ := find_first_spec (fun c => isHandoffName c.name)
      (rawToolCalls resp) c0 hfind
    exact ⟨i, c0, hi1, hi2, by rw [← hc0], hi3⟩
  · intro a hr na oi gi ri b h1 h2
    exact ⟨_, runSingleTurn_handoff_ok a oi gi ri b resp hr na h1 h2, rfl, rfl⟩
  · intro a oi gi ri b step h e he
    cases h1 : (processModelResponse resp).handoffAgent with
    | some hr =>
      cases h2 : getHandoffAgent hr.agentName a with
      | ok na =>
        rw [runSingleTurn_handoff_ok a oi gi ri b resp hr na h1 h2] at h
        cases h
        exact Or.inl he
      | error m =>
        rw [runSingleTurn_handoff_err a oi gi ri b resp hr m h1 h2] at h
        cases h
    | none =>
      by_cases h2 : (processModelResponse resp).toolCalls = []
      · rw [runSingleTurn_final a oi gi ri b resp h1 h2] at h
        cases h
        exact Or.inl he
      · rw [runSingleTurn_tools a oi gi ri b resp h1 h2] at h
        cases h
        rcases List.mem_append.mp he with h3 | h3
        · exact Or.inl h3
        · right
          unfold executeToolCalls at h3
          obtain ⟨c, hc, hce⟩ := List.mem_map.mp h3
          rw [← hce, execOneToolCall_name]
          exact hTC c hc

/-- Witness for C10 on a response with two handoff invocations and one
tool call. -/
theorem first_handoff_wins_witness :
    (∃ i c, (rawToolCalls respHandoffMulti).get? i = some c
      ∧ isHandoffName c.name = true
      ∧ ("B" : String) = handoffTargetOfName c.name
      ∧ ∀ j c2, j < i → (rawToolCalls respHandoffMulti).get? j = some c2
          → isHandoffName c2.name = false)
    ∧ (∃ step, (runSingleTurn agentA [] [] [] true (.ok respHandoffMulti)).result = .ok step
        ∧ step.nextStep = .handoff agentB ∧ step.generatedItems = []) :=
  ⟨(first_handoff_wins respHandoffMulti).2.1 ⟨"B", some "r1"⟩ rfl,
   (first_handoff_wins respHandoffMulti).2.2.2.1 agentA ⟨"B", some "r1"⟩ agentB
      [] [] [] true rfl rfl⟩

end LookerAssistant
